import Mathlib

/-! Self-connection manager of toxcore (`toxcore/self_connection.c`).

A shallow embedding of `self_connection.c` / `self_connection.h` and a
verification development over it.

Conventions of the embedding

* C integers are `Nat` / `Int`; where the C type can wrap, the wrap is written
  out (`% 2 ^ 32` for `uint32_t`, `% 2 ^ 64` for `uint64_t`).
* A byte buffer `(data, length)` is the list of its `length` bytes.
* `self_c->conns` is the list of its `SELF_CONN_MAX` entries; `&self_c->conns[i]`
  is the index `i`, a read is `getD i`, a write through the pointer is `set i`.
* The transport (`net_crypto`) is external.  Every call into it, and every
  upstream callback, is appended to a log of `Call`s, in program order.  What
  the transport answers is an input of the embedded function: the id returned
  by `accept_crypto_connection`, the value returned by `write_cryptpacket`.
* `unix_time()` is the input `now`.
* A function whose C execution reads past the end of `conns` returns `none`.
-/

namespace SelfConnection

/-! ## Constants of `self_connection.h` -/

def SELF_CONN_MAX : Nat := 16

def SELF_PING_INTERVAL : Nat := 7

def SELF_CONNECTION_TIMEOUT : Nat := SELF_PING_INTERVAL * 3

def SELFCONN_STATUS_NONE : Nat := 0

def SELFCONN_STATUS_CONNECTING : Nat := 1

def SELFCONN_STATUS_CONNECTED : Nat := 2

def PACKET_ID_SELF_ALIVE : Nat := 32

def PACKET_ID_SELF_FRIENDREQ : Nat := 33

def PACKET_ID_SELF_NEWFRIEND : Nat := 34

def PACKET_ID_SELF_DELFRIEND : Nat := 35

def PACKET_ID_SELF_FRIENDCONNECTIONSTATUS : Nat := 36

def PACKET_ID_SELF_FRIENDSTATUS : Nat := 37

def PACKET_ID_SELF_FRIENDNAME : Nat := 38

def PACKET_ID_SELF_FRIENDCHAT : Nat := 39

/-- Modelled from the spec: the macro `crypto_box_PUBLICKEYBYTES` is declared outside
`self_connection.c` and `self_connection.h`; public keys are fixed-width, 32 bytes. -/
def crypto_box_PUBLICKEYBYTES : Nat := 32

/-- Range of `uint32_t`. -/
def UINT32_MOD : Nat := 2 ^ 32

/-- Range of `uint64_t`. -/
def UINT64_MOD : Nat := 2 ^ 64

/-! ## Data model -/

/-- The struct `Self_Conn` of `self_connection.h`. -/
structure Self_Conn where
  status : Nat
  crypt_connection_id : Int
  ping_lastrecv : Nat
  ping_lastsent : Nat
  lock_count : Nat
deriving DecidableEq, Repr

/-- A slot as `calloc` leaves it: every field zero. -/
instance : Inhabited Self_Conn := ⟨⟨0, 0, 0, 0, 0⟩⟩

/-- The struct `Self_Callbacks`: for each callback, whether the function pointer is set. -/
structure Self_Callbacks where
  friend_namechange : Bool
deriving DecidableEq, Repr

/-- Modelled from the spec: the struct `Net_Crypto` is declared in `net_crypto.h`; the one
field read here is the local public key. -/
structure Net_Crypto where
  self_public_key : List Nat
deriving DecidableEq, Repr

/-- Modelled from the spec: the struct `New_Connection` is declared in `net_crypto.h`; the
one field read here is the public key the remote claims. -/
structure New_Connection where
  public_key : List Nat
deriving DecidableEq, Repr

/-- The struct `Self_Connections` of `self_connection.h` (the opaque `callback_object`
pointer is left out). -/
structure Self_Connections where
  net_crypto : Net_Crypto
  conns : List Self_Conn
  num_cons : Nat
  cb : Self_Callbacks
deriving DecidableEq, Repr

/-- One call that leaves the module: into the transport, or up through a callback, with
the arguments as written at the call site (the `net_crypto`, `self_c` and `callback_object`
pointers and the handler function pointers are left out). -/
inductive Call where
  | new_connection_handler : Call
  | accept_crypto_connection (n_c : New_Connection) : Call
  | write_cryptpacket (crypt_connection_id : Int) (data : List Nat) : Call
  | crypto_kill (crypt_connection_id : Int) : Call
  | connection_status_handler (crypt_connection_id : Int) (id : Nat) : Call
  | connection_data_handler (crypt_connection_id : Int) (id : Nat) : Call
  | connection_lossy_data_handler (crypt_connection_id : Int) (id : Nat) : Call
  | friend_namechange (friend_id : Int) (name : List Nat) (length : Nat) : Call
deriving DecidableEq, Repr

/-! ## Library functions used by the source -/

/-- The libc `memcmp` over the first `n` bytes: zero iff they agree, else the difference
of the first pair of bytes that differ. -/
def memcmp : List Nat → List Nat → Nat → Int
  | _, _, 0 => 0
  | a, b, n + 1 =>
    if a.headD 0 = b.headD 0 then memcmp a.tail b.tail n
    else (a.headD 0 : Int) - (b.headD 0 : Int)

/-- The statement `memcpy(&friend_id, &data[1], 4)`: the `int` whose four bytes in memory
are `b0 b1 b2 b3` (little-endian, two's complement). -/
def memcpy_to_int (b0 b1 b2 b3 : Nat) : Int :=
  let u : Nat := b0 % 256 + 256 * (b1 % 256) + 65536 * (b2 % 256) + 16777216 * (b3 % 256)
  if u < 2 ^ 31 then (u : Int) else (u : Int) - 2 ^ 32

/-- The four bytes in memory of an `int` (little-endian, two's complement). -/
def int_to_bytes (x : Int) : List Nat :=
  let u : Nat := (x % 2 ^ 32).toNat
  [u % 256, u / 256 % 256, u / 65536 % 256, u / 16777216 % 256]

/-! ## The functions of `self_connection.c` -/

/-- The scan `for (i = 0; ; i++) if (!self_c->conns[i].status) return &self_c->conns[i];` of
`new_conn`, from index `i` with `k` entries of the array left.  With no entry left the
next read is past the end of `conns`: `none`. -/
def new_conn_scan (conns : List Self_Conn) : Nat → Nat → Option Nat
  | 0, _ => none
  | k + 1, i =>
    if (conns.getD i default).status = 0 then some i
    else new_conn_scan conns k (i + 1)

/-- The function `new_conn`.  The result is `none` when the scan leaves the array,
`some (none, self_c)` for the `NULL` return, `some (some i, self_c')` for `&conns[i]`. -/
def new_conn (self_c : Self_Connections) : Option (Option Nat × Self_Connections) :=
  if self_c.num_cons = SELF_CONN_MAX then some (none, self_c)
  else
    let self_c1 := { self_c with num_cons := (self_c.num_cons + 1) % UINT32_MOD }
    match new_conn_scan self_c1.conns SELF_CONN_MAX 0 with
    | none => none
    | some i => some (some i, self_c1)

/-- The function `send_ping` on the slot `conn`; `ret` is what `write_cryptpacket`
returns.  Result: the return value, the slot afterwards, the calls made. -/
def send_ping (ret : Int) (now : Nat) (conn : Self_Conn) : Int × Self_Conn × List Call :=
  let ping : Nat := PACKET_ID_SELF_ALIVE
  let calls := [Call.write_cryptpacket conn.crypt_connection_id [ping]]
  if ret ≠ -1 then (0, { conn with ping_lastsent := now }, calls)
  else (-1, conn, calls)

/-- The function `handle_status`. -/
def handle_status (self_c : Self_Connections) (number : Nat) (status : Nat) (now : Nat) :
    Int × Self_Connections × List Call :=
  let conn := self_c.conns.getD number default
  if conn.status = 0 then (-1, self_c, [])
  else if status ≠ 0 then
    let conn1 : Self_Conn :=
      { conn with status := SELFCONN_STATUS_CONNECTED, ping_lastrecv := now }
    (0, { self_c with conns := self_c.conns.set number conn1 }, [])
  else
    let conn1 : Self_Conn := { conn with status := 0 }
    (0, { self_c with conns := self_c.conns.set number conn1 }, [])

/-- The function `handle_packet`; `data` holds the `length` bytes of the packet. -/
def handle_packet (self_c : Self_Connections) (number : Nat) (data : List Nat) (now : Nat) :
    Int × Self_Connections × List Call :=
  let conn := self_c.conns.getD number default
  let length := data.length
  if length = 0 then (-1, self_c, [])
  else if conn.status = 0 then (-1, self_c, [])
  else
    let tag := data.getD 0 0
    if tag = PACKET_ID_SELF_ALIVE then
      let conn1 : Self_Conn := { conn with ping_lastrecv := now }
      (0, { self_c with conns := self_c.conns.set number conn1 }, [])
    else if tag = PACKET_ID_SELF_FRIENDREQ then (0, self_c, [])
    else if tag = PACKET_ID_SELF_NEWFRIEND then (0, self_c, [])
    else if tag = PACKET_ID_SELF_DELFRIEND then (0, self_c, [])
    else if tag = PACKET_ID_SELF_FRIENDCONNECTIONSTATUS then (0, self_c, [])
    else if tag = PACKET_ID_SELF_FRIENDSTATUS then (0, self_c, [])
    else if tag = PACKET_ID_SELF_FRIENDNAME then
      if length < 5 then (0, self_c, [])
      else
        let friend_id :=
          memcpy_to_int (data.getD 1 0) (data.getD 2 0) (data.getD 3 0) (data.getD 4 0)
        if self_c.cb.friend_namechange then
          (0, self_c, [Call.friend_namechange friend_id (data.drop 5) (length - 5)])
        else (0, self_c, [])
    else if tag = PACKET_ID_SELF_FRIENDCHAT then (0, self_c, [])
    else (0, self_c, [])

/-- The function `handle_lossy_packet`. -/
def handle_lossy_packet (self_c : Self_Connections) (number : Nat) (data : List Nat) :
    Int × Self_Connections × List Call :=
  let conn := self_c.conns.getD number default
  if data.length = 0 then (-1, self_c, [])
  else if conn.status = 0 then (-1, self_c, [])
  else (0, self_c, [])

/-- The function `handle_new_connections`; `id` is what `accept_crypto_connection`
returns.  The result is `none` when `new_conn` leaves the array. -/
def handle_new_connections (self_c : Self_Connections) (n_c : New_Connection) (id : Int) :
    Option (Int × Self_Connections × List Call) :=
  if memcmp self_c.net_crypto.self_public_key n_c.public_key crypto_box_PUBLICKEYBYTES = 0 then
    let calls := [Call.accept_crypto_connection n_c]
    match new_conn self_c with
    | none => none
    | some (none, self_c1) => some (-1, self_c1, calls)
    | some (some i, self_c1) =>
      let conn := self_c1.conns.getD i default
      let conn1 : Self_Conn :=
        { conn with status := SELFCONN_STATUS_CONNECTING, crypt_connection_id := id }
      let conn_id := i
      some (0, { self_c1 with conns := self_c1.conns.set i conn1 },
        calls ++ [Call.connection_status_handler id conn_id,
                  Call.connection_data_handler id conn_id,
                  Call.connection_lossy_data_handler id conn_id])
  else some (-1, self_c, [])

/-- The frame `msg` that `self_connections_sync_friend` builds. -/
def sync_friend_msg (friend_id : Int) (packet_id : Nat) (data : List Nat) : List Nat :=
  [packet_id] ++ int_to_bytes friend_id ++ data

/-- The function `self_connections_sync_friend`: the table is only read. -/
def self_connections_sync_friend (self_c : Self_Connections) (friend_id : Int) (packet_id : Nat)
    (data : List Nat) : List Call :=
  let msg := sync_friend_msg friend_id packet_id data
  (List.range SELF_CONN_MAX).foldl
    (fun calls i =>
      let conn := self_c.conns.getD i default
      if conn.status = 0 then calls
      else calls ++ [Call.write_cryptpacket conn.crypt_connection_id msg])
    []

/-- The table as `calloc` returns it, with the three assignments of
`new_self_connections` done. -/
def fresh (net_crypto : Net_Crypto) (cb : Self_Callbacks) : Self_Connections :=
  { net_crypto := net_crypto
    conns := List.replicate SELF_CONN_MAX default
    num_cons := 0
    cb := cb }

/-- The function `new_self_connections`; a `NULL` argument is `none`, and `calloc_ok` says
whether `calloc` returned memory. -/
def new_self_connections (net_crypto : Option Net_Crypto) (cb : Self_Callbacks)
    (calloc_ok : Bool) : Option (Self_Connections × List Call) :=
  match net_crypto with
  | none => none
  | some nc =>
    if calloc_ok then some (fresh nc cb, [Call.new_connection_handler])
    else none

/-- The two checks of one iteration of the loop of `do_self_connections` (after the
`continue` test) on the slot `conn`: the keepalive check with its `send_ping`, then the
timeout check with its `crypto_kill`.  `ret` is what `write_cryptpacket` returns, should
`send_ping` be called.  Result: the slot afterwards and the calls made. -/
def do_self_connections_conn (now : Nat) (ret : Int) (conn : Self_Conn) :
    Self_Conn × List Call :=
  let pinged : Self_Conn × List Call :=
    if (conn.ping_lastsent + SELF_PING_INTERVAL) % UINT64_MOD < now then
      ((send_ping ret now conn).2.1, (send_ping ret now conn).2.2)
    else (conn, [])
  let killed : Self_Conn × List Call :=
    if (pinged.1.ping_lastrecv + SELF_CONNECTION_TIMEOUT) % UINT64_MOD < now then
      ({ pinged.1 with status := 0 }, [Call.crypto_kill pinged.1.crypt_connection_id])
    else (pinged.1, [])
  (killed.1, pinged.2 ++ killed.2)

/-- One iteration of the loop of `do_self_connections`, on slot `i`; `write_ret i` is what
`write_cryptpacket` returns to the `send_ping` of this iteration. -/
def do_self_connections_body (now : Nat) (write_ret : Nat → Int)
    (st : Self_Connections × List Call) (i : Nat) : Self_Connections × List Call :=
  let conn := st.1.conns.getD i default
  if conn.status = 0 then st
  else
    ({ st.1 with conns := st.1.conns.set i (do_self_connections_conn now (write_ret i) conn).1 },
      st.2 ++ (do_self_connections_conn now (write_ret i) conn).2)

/-- The function `do_self_connections`, run at time `now`. -/
def do_self_connections (self_c : Self_Connections) (now : Nat) (write_ret : Nat → Int) :
    Self_Connections × List Call :=
  (List.range SELF_CONN_MAX).foldl (do_self_connections_body now write_ret) (self_c, [])

/-- The function `kill_self_connections`: the calls made before the table is freed; a
`NULL` argument is `none`. -/
def kill_self_connections (self_c : Option Self_Connections) : List Call :=
  match self_c with
  | none => []
  | some s =>
    (List.range SELF_CONN_MAX).foldl
      (fun calls i =>
        let conn := s.conns.getD i default
        if conn.status = 0 then calls
        else calls ++ [Call.crypto_kill conn.crypt_connection_id])
      []

/-! ## Derived notions used in the statements -/

/-- Number of slots of `conns[0..15]` whose status is not `SELFCONN_STATUS_NONE`. -/
def active_count (conns : List Self_Conn) : Nat :=
  (List.range SELF_CONN_MAX).countP (fun i => decide ((conns.getD i default).status ≠ 0))

/-- Number of slots of `conns[0..15]` that are active in `before` and free in `after`. -/
def released (before after : List Self_Conn) : Nat :=
  (List.range SELF_CONN_MAX).countP (fun i =>
    decide ((before.getD i default).status ≠ 0 ∧ (after.getD i default).status = 0))

/-- Number of slots of `conns[0..15]` that are free in `before` and active in `after`. -/
def admitted (before after : List Self_Conn) : Nat :=
  (List.range SELF_CONN_MAX).countP (fun i =>
    decide ((before.getD i default).status = 0 ∧ (after.getD i default).status ≠ 0))

/-- Slot `i` is the first free slot of `conns[0..15]`. -/
def first_free (conns : List Self_Conn) (i : Nat) : Prop :=
  i < SELF_CONN_MAX ∧ (conns.getD i default).status = 0 ∧
    ∀ l, l < i → (conns.getD l default).status ≠ 0

/-- The keys `a` and `b` agree on each of their `crypto_box_PUBLICKEYBYTES` bytes. -/
def same_key (a b : List Nat) : Prop :=
  ∀ i, i < crypto_box_PUBLICKEYBYTES → a.getD i 0 = b.getD i 0

/-- The calls of the first `k` iterations of the loop of `do_self_connections`, read off
the table the tick starts from. -/
def tick_calls (self_c : Self_Connections) (now : Nat) (write_ret : Nat → Int) (k : Nat) :
    List Call :=
  ((List.range k).map (fun j =>
    if (self_c.conns.getD j default).status = 0 then []
    else (do_self_connections_conn now (write_ret j) (self_c.conns.getD j default)).2)).flatten

/-- The slot `j` after a tick, read off the slot before it. -/
def tick_slot (now : Nat) (ret : Int) (conn : Self_Conn) : Self_Conn :=
  if conn.status = 0 then conn else (do_self_connections_conn now ret conn).1

/-- The invariant of the table: the array has its `SELF_CONN_MAX` entries, and `num_cons`
is at least the number of active slots and at most `SELF_CONN_MAX`. -/
def table_ok (self_c : Self_Connections) : Prop :=
  self_c.conns.length = SELF_CONN_MAX ∧ active_count self_c.conns ≤ self_c.num_cons ∧
    self_c.num_cons ≤ SELF_CONN_MAX

/-- One entry into the module, with what the environment supplies to it. -/
inductive Event where
  | new_connection (n_c : New_Connection) (id : Int) : Event
  | status (number : Nat) (status : Nat) (now : Nat) : Event
  | packet (number : Nat) (data : List Nat) (now : Nat) : Event
  | lossy_packet (number : Nat) (data : List Nat) : Event
  | tick (now : Nat) (write_ret : Nat → Int) : Event
  | sync_friend (friend_id : Int) (packet_id : Nat) (data : List Nat) : Event

/-- The transport calls a handler with a slot index it was registered with: an index of
the array. -/
def Event.valid : Event → Prop
  | Event.status number _ _ => number < SELF_CONN_MAX
  | Event.packet number _ _ => number < SELF_CONN_MAX
  | Event.lossy_packet number _ => number < SELF_CONN_MAX
  | _ => True

/-- The table after one event (`none` when the C execution leaves the array). -/
def step (self_c : Self_Connections) : Event → Option Self_Connections
  | Event.new_connection n_c id =>
    match handle_new_connections self_c n_c id with
    | none => none
    | some r => some r.2.1
  | Event.status number status now => some (handle_status self_c number status now).2.1
  | Event.packet number data now => some (handle_packet self_c number data now).2.1
  | Event.lossy_packet number data => some (handle_lossy_packet self_c number data).2.1
  | Event.tick now write_ret => some (do_self_connections self_c now write_ret).1
  | Event.sync_friend _ _ _ => some self_c

/-- The table after a sequence of events. -/
def run : Self_Connections → List Event → Option Self_Connections
  | self_c, [] => some self_c
  | self_c, e :: es =>
    match step self_c e with
    | none => none
    | some s1 => run s1 es

/-- Total number of slot releases along a sequence of events: for each event, the slots
that were active before it and are free after it. -/
def run_released : Self_Connections → List Event → Nat
  | _, [] => 0
  | self_c, e :: es =>
    match step self_c e with
    | none => 0
    | some s1 => released self_c.conns s1.conns + run_released s1 es

/-- The states a manager can be in: those a freshly created manager reaches by a sequence
of events. -/
def Reachable (self_c : Self_Connections) : Prop :=
  ∃ (net_crypto : Net_Crypto) (cb : Self_Callbacks) (evs : List Event),
    (∀ e, e ∈ evs → e.valid) ∧ run (fresh net_crypto cb) evs = some self_c

/-- What every event preserves, and how it moves `num_cons`. -/
def step_post (self_c s1 : Self_Connections) : Prop :=
  s1.conns.length = SELF_CONN_MAX ∧
  s1.num_cons = self_c.num_cons + admitted self_c.conns s1.conns ∧
  s1.num_cons ≤ SELF_CONN_MAX ∧
  s1.net_crypto = self_c.net_crypto ∧ s1.cb = self_c.cb

/-- The slot a successful admission leaves behind in a fresh table, for the request `r`. -/
def admitted_slot (r : New_Connection × Int) : Self_Conn :=
  { status := SELFCONN_STATUS_CONNECTING, crypt_connection_id := r.2,
    ping_lastrecv := 0, ping_lastsent := 0, lock_count := 0 }

/-- Consecutive calls of `handle_new_connections`, one per request (a request and the id
that `accept_crypto_connection` returns for it): the return values and the final table. -/
def admit_list (self_c : Self_Connections) :
    List (New_Connection × Int) → Option (List Int × Self_Connections)
  | [] => some ([], self_c)
  | r :: rest =>
    match handle_new_connections self_c r.1 r.2 with
    | none => none
    | some res =>
      match admit_list res.2.1 rest with
      | none => none
      | some out => some (res.1 :: out.1, out.2)

/-- Whether a call is a `write_cryptpacket`. -/
def Call.is_write : Call → Bool
  | Call.write_cryptpacket _ _ => true
  | _ => false

/-- Whether a call is a `crypto_kill`. -/
def Call.is_kill : Call → Bool
  | Call.crypto_kill _ => true
  | _ => false

/-- Consecutive calls of `do_self_connections`, one per entry of the list (the time of the
tick and what `write_cryptpacket` returns during it): the final table and all the calls
made, in order. -/
def run_ticks : Self_Connections → List (Nat × (Nat → Int)) → Self_Connections × List Call
  | self_c, [] => (self_c, [])
  | self_c, t :: rest =>
    ((run_ticks (do_self_connections self_c t.1 t.2).1 rest).1,
      (do_self_connections self_c t.1 t.2).2 ++
        (run_ticks (do_self_connections self_c t.1 t.2).1 rest).2)

/-- Whether a call is an `accept_crypto_connection`. -/
def Call.is_accept : Call → Bool
  | Call.accept_crypto_connection _ => true
  | _ => false

/-- No active slot of `conns[0..15]` other than slot `j` holds the connection id `x`. -/
def id_unique (conns : List Self_Conn) (j : Nat) (x : Int) : Prop :=
  ∀ i, i < SELF_CONN_MAX → i ≠ j → (conns.getD i default).status ≠ 0 →
    (conns.getD i default).crypt_connection_id ≠ x

/-- Both timestamps of every slot are the same in the tables `a` and `b`. -/
def same_stamps (a b : List Self_Conn) : Prop :=
  ∀ j, (a.getD j default).ping_lastrecv = (b.getD j default).ping_lastrecv ∧
    (a.getD j default).ping_lastsent = (b.getD j default).ping_lastsent

/-! ## Concrete data used to instantiate the theorems -/

/-- A 32-byte public key, every byte `7`. -/
def key_local : List Nat := List.replicate 32 7

/-- A 32-byte public key that differs from `key_local` in its last byte only. -/
def key_other : List Nat := List.replicate 31 7 ++ [8]

/-- A freshly created manager whose local key is `key_local`, name-change callback set. -/
def mgr_fresh : Self_Connections := fresh ⟨key_local⟩ ⟨true⟩

/-- A manager with slot 0 Connected (id 40, last keepalive received at 5) and slot 1
Connecting (id 41); the other 14 slots are free. -/
def mgr_two : Self_Connections :=
  { net_crypto := ⟨key_local⟩
    conns := [⟨2, 40, 5, 0, 0⟩, ⟨1, 41, 0, 0, 0⟩] ++ List.replicate 14 default
    num_cons := 2
    cb := ⟨true⟩ }

/-- The table `mgr_two` after one more admission, with id 42: slot 2 is Connecting. -/
def mgr_three : Self_Connections :=
  { net_crypto := ⟨key_local⟩
    conns := [⟨2, 40, 5, 0, 0⟩, ⟨1, 41, 0, 0, 0⟩, ⟨1, 42, 0, 0, 0⟩] ++ List.replicate 13 default
    num_cons := 3
    cb := ⟨true⟩ }

/-- Sixteen requests carrying the local key; the transport returns the ids 100, 101, ... -/
def reqs16 : List (New_Connection × Int) :=
  (List.range 16).map (fun i => (⟨key_local⟩, (100 + i : Int)))

/-- The table after one admission (id 40) and the release of its slot. -/
def mgr_released : Self_Connections :=
  { net_crypto := ⟨key_local⟩
    conns := ⟨0, 40, 0, 0, 0⟩ :: List.replicate 15 default
    num_cons := 1
    cb := ⟨true⟩ }

/-- The table after sixteen admissions (id 40 each) and the release of slot 0. -/
def mgr_worn : Self_Connections :=
  { net_crypto := ⟨key_local⟩
    conns := ⟨0, 40, 0, 0, 0⟩ :: List.replicate 15 ⟨1, 40, 0, 0, 0⟩
    num_cons := 16
    cb := ⟨true⟩ }

/-- A table whose slot 0 became Connected at time 0 (id 40) and was never pinged; the other
15 slots are free. -/
def mgr_stale : Self_Connections :=
  { net_crypto := ⟨key_local⟩
    conns := ⟨2, 40, 0, 0, 0⟩ :: List.replicate 15 default
    num_cons := 1
    cb := ⟨true⟩ }

/-! ## Lemmas on the library functions and on array access -/

theorem memcmp_eq_zero_iff (n : Nat) : ∀ (a b : List Nat),
    memcmp a b n = 0 ↔ ∀ i, i < n → a.getD i 0 = b.getD i 0 := by
  induction n with
  | zero => intro a b; simp [memcmp]
  | succ n ih =>
    intro a b
    have hd : ∀ l : List Nat, l.headD 0 = l.getD 0 0 := by
      intro l; cases l <;> rfl
    have tl : ∀ (l : List Nat) (i : Nat), l.tail.getD i 0 = l.getD (i + 1) 0 := by
      intro l i; cases l <;> simp
    unfold memcmp
    by_cases h : a.headD 0 = b.headD 0
    · rw [if_pos h, ih]
      constructor
      · intro H i hi
        cases i with
        | zero => rw [← hd, ← hd]; exact h
        | succ j => rw [← tl, ← tl]; exact H j (by omega)
      · intro H i hi
        rw [tl, tl]; exact H (i + 1) (by omega)
    · rw [if_neg h]
      constructor
      · intro H
        exfalso
        apply h
        have : (a.headD 0 : Int) = (b.headD 0 : Int) := by omega
        exact_mod_cast this
      · intro H
        exfalso
        apply h
        rw [hd, hd]
        exact H 0 (by omega)

theorem int_to_bytes_memcpy_to_int (b0 b1 b2 b3 : Nat) (h0 : b0 < 256) (h1 : b1 < 256)
    (h2 : b2 < 256) (h3 : b3 < 256) :
    int_to_bytes (memcpy_to_int b0 b1 b2 b3) = [b0, b1, b2, b3] := by
  unfold int_to_bytes memcpy_to_int
  simp only []
  split_ifs with h
  · simp only [List.cons.injEq, and_true]
    refine ⟨?_, ?_, ?_, ?_⟩ <;> omega
  · simp only [List.cons.injEq, and_true]
    refine ⟨?_, ?_, ?_, ?_⟩ <;> omega

theorem memcpy_to_int_range (b0 b1 b2 b3 : Nat) :
    -(2 ^ 31 : Int) ≤ memcpy_to_int b0 b1 b2 b3 ∧ memcpy_to_int b0 b1 b2 b3 < 2 ^ 31 := by
  unfold memcpy_to_int
  simp only []
  split_ifs with h <;> constructor <;> omega

theorem getD_set_self (l : List Self_Conn) (i : Nat) (c : Self_Conn) (h : i < l.length) :
    (l.set i c).getD i default = c := by
  simp [List.getD_eq_getElem?_getD, List.getElem?_set, h]

theorem getD_set_ne (l : List Self_Conn) (i j : Nat) (c : Self_Conn) (h : j ≠ i) :
    (l.set i c).getD j default = l.getD j default := by
  simp [List.getD_eq_getElem?_getD, List.getElem?_set, Ne.symm h]

theorem set_getD_self (l : List Self_Conn) : ∀ i, l.set i (l.getD i default) = l := by
  induction l with
  | nil => intro i; rfl
  | cons a t ih =>
    intro i
    cases i with
    | zero => rfl
    | succ j =>
      rw [List.getD_cons_succ, List.set_cons_succ, ih j]

/-! ## Equations of the handlers, case by case -/

theorem handle_status_none (self_c : Self_Connections) (number status now : Nat)
    (h : (self_c.conns.getD number default).status = 0) :
    handle_status self_c number status now = (-1, self_c, []) := by
  unfold handle_status
  simp only [h, if_true]

theorem handle_status_online (self_c : Self_Connections) (number status now : Nat)
    (h : (self_c.conns.getD number default).status ≠ 0) (hs : status ≠ 0) :
    handle_status self_c number status now =
      (0, { self_c with
            conns := self_c.conns.set number
              { self_c.conns.getD number default with
                status := SELFCONN_STATUS_CONNECTED, ping_lastrecv := now } }, []) := by
  unfold handle_status
  simp only [if_neg h, if_pos hs]

theorem handle_status_offline (self_c : Self_Connections) (number now : Nat)
    (h : (self_c.conns.getD number default).status ≠ 0) :
    handle_status self_c number 0 now =
      (0, { self_c with
            conns := self_c.conns.set number
              { self_c.conns.getD number default with status := 0 } }, []) := by
  unfold handle_status
  simp only [if_neg h, ne_eq, not_true_eq_false, if_false]

theorem handle_packet_fail (self_c : Self_Connections) (number : Nat) (data : List Nat)
    (now : Nat) (h : data.length = 0 ∨ (self_c.conns.getD number default).status = 0) :
    handle_packet self_c number data now = (-1, self_c, []) := by
  unfold handle_packet
  by_cases hl : data.length = 0
  · simp only [hl, if_true]
  · rcases h with h | h
    · exact absurd h hl
    · simp only [if_neg hl, h, if_true]

theorem handle_packet_alive (self_c : Self_Connections) (number : Nat) (data : List Nat)
    (now : Nat) (hact : (self_c.conns.getD number default).status ≠ 0)
    (htag : data.head? = some PACKET_ID_SELF_ALIVE) :
    handle_packet self_c number data now =
      (0, { self_c with
            conns := self_c.conns.set number
              { self_c.conns.getD number default with ping_lastrecv := now } }, []) := by
  cases data with
  | nil => simp at htag
  | cons tag rest =>
    simp only [List.head?_cons, Option.some.injEq] at htag
    subst htag
    unfold handle_packet
    simp only [List.length_cons, if_false, if_neg hact, List.getD_cons_zero,
      if_true, Nat.add_one_ne_zero]

theorem handle_packet_friendname_eq (self_c : Self_Connections) (number : Nat)
    (data : List Nat) (now : Nat) (hact : (self_c.conns.getD number default).status ≠ 0)
    (htag : data.head? = some PACKET_ID_SELF_FRIENDNAME) :
    handle_packet self_c number data now =
      (0, self_c,
        if data.length < 5 then []
        else if self_c.cb.friend_namechange then
          [Call.friend_namechange
            (memcpy_to_int (data.getD 1 0) (data.getD 2 0) (data.getD 3 0) (data.getD 4 0))
            (data.drop 5) (data.length - 5)]
        else []) := by
  cases data with
  | nil => simp at htag
  | cons tag rest =>
    simp only [List.head?_cons, Option.some.injEq] at htag
    subst htag
    unfold handle_packet
    simp only [List.length_cons, Nat.add_one_ne_zero, if_false, if_neg hact, List.getD_cons_zero]
    simp only [PACKET_ID_SELF_FRIENDNAME, PACKET_ID_SELF_ALIVE, PACKET_ID_SELF_FRIENDREQ,
      PACKET_ID_SELF_NEWFRIEND, PACKET_ID_SELF_DELFRIEND, PACKET_ID_SELF_FRIENDCONNECTIONSTATUS,
      PACKET_ID_SELF_FRIENDSTATUS, Nat.reduceEqDiff, if_false, if_true]
    split_ifs <;> rfl

theorem handle_packet_other (self_c : Self_Connections) (number : Nat)
    (data : List Nat) (now : Nat) (hact : (self_c.conns.getD number default).status ≠ 0)
    (hdata : data ≠ [])
    (h1 : data.head? ≠ some PACKET_ID_SELF_ALIVE)
    (h2 : data.head? ≠ some PACKET_ID_SELF_FRIENDNAME) :
    handle_packet self_c number data now = (0, self_c, []) := by
  cases data with
  | nil => exact absurd rfl hdata
  | cons tag rest =>
    simp only [List.head?_cons, ne_eq, Option.some.injEq] at h1 h2
    unfold handle_packet
    simp only [List.length_cons, Nat.add_one_ne_zero, if_false, if_neg hact, List.getD_cons_zero,
      if_neg h1, if_neg h2]
    split_ifs <;> rfl

theorem handle_lossy_packet_eq (self_c : Self_Connections) (number : Nat) (data : List Nat) :
    handle_lossy_packet self_c number data =
      (if data.length = 0 ∨ (self_c.conns.getD number default).status = 0 then -1 else 0,
        self_c, []) := by
  unfold handle_lossy_packet
  by_cases hl : data.length = 0
  · simp only [hl, if_true, true_or]
  · by_cases hs : (self_c.conns.getD number default).status = 0
    · simp only [if_neg hl, hs, if_true, or_true]
    · rw [if_neg hl, if_neg hs, if_neg (by rintro (h | h) <;> contradiction)]

/-! ## Allocation and admission -/

theorem new_conn_scan_spec (conns : List Self_Conn) : ∀ k i,
    (∀ j, new_conn_scan conns k i = some j →
      i ≤ j ∧ j < i + k ∧ (conns.getD j default).status = 0 ∧
        ∀ l, i ≤ l → l < j → (conns.getD l default).status ≠ 0) ∧
    (new_conn_scan conns k i = none →
      ∀ l, i ≤ l → l < i + k → (conns.getD l default).status ≠ 0) := by
  intro k
  induction k with
  | zero =>
    intro i
    constructor
    · intro j h; simp [new_conn_scan] at h
    · intro _ l h1 h2; omega
  | succ k ih =>
    intro i
    unfold new_conn_scan
    by_cases h0 : (conns.getD i default).status = 0
    · rw [if_pos h0]
      constructor
      · intro j hj
        have : i = j := by simpa using hj
        subst this
        exact ⟨le_refl _, by omega, h0, fun l h1 h2 => by omega⟩
      · intro h; simp at h
    · rw [if_neg h0]
      obtain ⟨ih1, ih2⟩ := ih (i + 1)
      constructor
      · intro j hj
        obtain ⟨a, b, c, d⟩ := ih1 j hj
        refine ⟨by omega, by omega, c, fun l h1 h2 => ?_⟩
        by_cases hl : l = i
        · subst hl; exact h0
        · exact d l (by omega) h2
      · intro hn l h1 h2
        by_cases hl : l = i
        · subst hl; exact h0
        · exact ih2 hn l (by omega) (by omega)

theorem new_conn_scan_first_free (conns : List Self_Conn) (i : Nat)
    (h : first_free conns i) : new_conn_scan conns SELF_CONN_MAX 0 = some i := by
  obtain ⟨h1, h2, h3⟩ := h
  obtain ⟨s1, s2⟩ := new_conn_scan_spec conns SELF_CONN_MAX 0
  cases hres : new_conn_scan conns SELF_CONN_MAX 0 with
  | none =>
    exact absurd h2 (s2 hres i (Nat.zero_le _) (by omega))
  | some j =>
    obtain ⟨_, _, c, d⟩ := s1 j hres
    congr 1
    rcases Nat.lt_trichotomy j i with hlt | heq | hgt
    · exact absurd c (h3 j hlt)
    · exact heq
    · exact absurd h2 (d i (Nat.zero_le _) hgt)

theorem first_free_of_scan (conns : List Self_Conn) (i : Nat)
    (h : new_conn_scan conns SELF_CONN_MAX 0 = some i) : first_free conns i := by
  obtain ⟨_, b, c, d⟩ := (new_conn_scan_spec conns SELF_CONN_MAX 0).1 i h
  exact ⟨by omega, c, fun l hl => d l (Nat.zero_le _) hl⟩

theorem new_conn_full (self_c : Self_Connections) (h : self_c.num_cons = SELF_CONN_MAX) :
    new_conn self_c = some (none, self_c) := by
  unfold new_conn
  rw [if_pos h]

theorem new_conn_free (self_c : Self_Connections) (i : Nat)
    (h : self_c.num_cons ≠ SELF_CONN_MAX) (hi : first_free self_c.conns i) :
    new_conn self_c =
      some (some i, { self_c with num_cons := (self_c.num_cons + 1) % UINT32_MOD }) := by
  unfold new_conn
  rw [if_neg h]
  simp only [new_conn_scan_first_free self_c.conns i hi]

theorem new_conn_none (self_c : Self_Connections) (h : new_conn self_c = none) :
    self_c.num_cons ≠ SELF_CONN_MAX ∧
      ∀ l, l < SELF_CONN_MAX → (self_c.conns.getD l default).status ≠ 0 := by
  unfold new_conn at h
  by_cases hc : self_c.num_cons = SELF_CONN_MAX
  · rw [if_pos hc] at h; simp at h
  · rw [if_neg hc] at h
    refine ⟨hc, ?_⟩
    cases hres : new_conn_scan self_c.conns SELF_CONN_MAX 0 with
    | none =>
      intro l hl
      exact (new_conn_scan_spec self_c.conns SELF_CONN_MAX 0).2 hres l (Nat.zero_le _) (by omega)
    | some j =>
      simp only [hres] at h
      simp at h

theorem handle_new_connections_mismatch (self_c : Self_Connections) (n_c : New_Connection)
    (id : Int) (h : ¬ same_key n_c.public_key self_c.net_crypto.self_public_key) :
    handle_new_connections self_c n_c id = some (-1, self_c, []) := by
  have hcmp : memcmp self_c.net_crypto.self_public_key n_c.public_key
      crypto_box_PUBLICKEYBYTES ≠ 0 := by
    intro h0
    apply h
    intro i hi
    exact ((memcmp_eq_zero_iff _ _ _).1 h0 i hi).symm
  unfold handle_new_connections
  rw [if_neg hcmp]

theorem memcmp_of_same_key (a b : List Nat) (h : same_key a b) :
    memcmp b a crypto_box_PUBLICKEYBYTES = 0 :=
  (memcmp_eq_zero_iff _ _ _).2 (fun i hi => (h i hi).symm)

theorem handle_new_connections_full (self_c : Self_Connections) (n_c : New_Connection)
    (id : Int) (h : same_key n_c.public_key self_c.net_crypto.self_public_key)
    (hfull : self_c.num_cons = SELF_CONN_MAX) :
    handle_new_connections self_c n_c id =
      some (-1, self_c, [Call.accept_crypto_connection n_c]) := by
  unfold handle_new_connections
  rw [if_pos (memcmp_of_same_key _ _ h)]
  simp only [new_conn_full self_c hfull]

theorem handle_new_connections_free (self_c : Self_Connections) (n_c : New_Connection)
    (id : Int) (i : Nat) (h : same_key n_c.public_key self_c.net_crypto.self_public_key)
    (hroom : self_c.num_cons ≠ SELF_CONN_MAX) (hi : first_free self_c.conns i) :
    handle_new_connections self_c n_c id =
      some (0,
        { self_c with
          conns := self_c.conns.set i
            { self_c.conns.getD i default with
              status := SELFCONN_STATUS_CONNECTING, crypt_connection_id := id }
          num_cons := (self_c.num_cons + 1) % UINT32_MOD },
        [Call.accept_crypto_connection n_c, Call.connection_status_handler id i,
          Call.connection_data_handler id i, Call.connection_lossy_data_handler id i]) := by
  unfold handle_new_connections
  rw [if_pos (memcmp_of_same_key _ _ h)]
  simp only [new_conn_free self_c i hroom hi]
  rfl

theorem handle_new_connections_undefined (self_c : Self_Connections) (n_c : New_Connection)
    (id : Int) (h : handle_new_connections self_c n_c id = none) :
    self_c.num_cons ≠ SELF_CONN_MAX ∧
      ∀ l, l < SELF_CONN_MAX → (self_c.conns.getD l default).status ≠ 0 := by
  by_cases hk : same_key n_c.public_key self_c.net_crypto.self_public_key
  · cases hnew : new_conn self_c with
    | none => exact new_conn_none self_c hnew
    | some r =>
      unfold handle_new_connections at h
      rw [if_pos (memcmp_of_same_key _ _ hk)] at h
      simp only [hnew] at h
      rcases r with ⟨_ | i, s1⟩ <;> simp at h
  · rw [handle_new_connections_mismatch self_c n_c id hk] at h
    simp at h

/-- Every outcome of `handle_new_connections`, by cases. -/
theorem handle_new_connections_cases (self_c : Self_Connections) (n_c : New_Connection)
    (id : Int) :
    (¬ same_key n_c.public_key self_c.net_crypto.self_public_key ∧
      handle_new_connections self_c n_c id = some (-1, self_c, [])) ∨
    (same_key n_c.public_key self_c.net_crypto.self_public_key ∧
      self_c.num_cons = SELF_CONN_MAX ∧
      handle_new_connections self_c n_c id =
        some (-1, self_c, [Call.accept_crypto_connection n_c])) ∨
    (same_key n_c.public_key self_c.net_crypto.self_public_key ∧
      self_c.num_cons ≠ SELF_CONN_MAX ∧
      (∀ l, l < SELF_CONN_MAX → (self_c.conns.getD l default).status ≠ 0) ∧
      handle_new_connections self_c n_c id = none) ∨
    (same_key n_c.public_key self_c.net_crypto.self_public_key ∧
      self_c.num_cons ≠ SELF_CONN_MAX ∧
      ∃ i, first_free self_c.conns i ∧
        handle_new_connections self_c n_c id =
          some (0,
            { self_c with
              conns := self_c.conns.set i
                { self_c.conns.getD i default with
                  status := SELFCONN_STATUS_CONNECTING, crypt_connection_id := id }
              num_cons := (self_c.num_cons + 1) % UINT32_MOD },
            [Call.accept_crypto_connection n_c, Call.connection_status_handler id i,
              Call.connection_data_handler id i,
              Call.connection_lossy_data_handler id i])) := by
  by_cases hk : same_key n_c.public_key self_c.net_crypto.self_public_key
  · by_cases hfull : self_c.num_cons = SELF_CONN_MAX
    · exact Or.inr (Or.inl ⟨hk, hfull, handle_new_connections_full self_c n_c id hk hfull⟩)
    · cases hscan : new_conn_scan self_c.conns SELF_CONN_MAX 0 with
      | none =>
        refine Or.inr (Or.inr (Or.inl ⟨hk, hfull, ?_, ?_⟩))
        · intro l hl
          exact (new_conn_scan_spec self_c.conns SELF_CONN_MAX 0).2 hscan l (Nat.zero_le _)
            (by omega)
        · unfold handle_new_connections new_conn
          rw [if_pos (memcmp_of_same_key _ _ hk), if_neg hfull]
          simp only [hscan]
      | some i =>
        have hi := first_free_of_scan self_c.conns i hscan
        exact Or.inr (Or.inr (Or.inr ⟨hk, hfull, i, hi,
          handle_new_connections_free self_c n_c id i hk hfull hi⟩))
  · exact Or.inl ⟨hk, handle_new_connections_mismatch self_c n_c id hk⟩

/-! ## Counting slots -/

theorem countP_range_identity (p q r t : Nat → Bool) : ∀ n : Nat,
    (∀ j, j < n → (if p j then 1 else 0) + (if q j then 1 else 0)
      = (if r j then 1 else 0) + (if t j then (1 : Nat) else 0)) →
    (List.range n).countP p + (List.range n).countP q
      = (List.range n).countP r + (List.range n).countP t := by
  intro n
  induction n with
  | zero => intro _; rfl
  | succ n ih =>
    intro h
    have h1 := ih (fun j hj => h j (by omega))
    have h2 := h n (by omega)
    rw [List.range_succ]
    simp only [List.countP_append, List.countP_singleton]
    omega

theorem countP_range_single (p : Nat → Bool) (i : Nat) : ∀ n : Nat, i < n →
    (∀ j, j < n → (p j = true ↔ j = i)) → (List.range n).countP p = 1 := by
  intro n
  induction n with
  | zero => intro h; omega
  | succ n ih =>
    intro hi hp
    rw [List.range_succ, List.countP_append, List.countP_singleton]
    by_cases hin : i = n
    · have hz : (List.range n).countP p = 0 := by
        rw [List.countP_eq_zero]
        intro a ha
        have han : a < n := List.mem_range.1 ha
        intro hpa
        have := (hp a (by omega)).1 hpa
        omega
      have hpn : p n = true := (hp n (by omega)).2 hin.symm
      rw [hz, if_pos hpn]
    · have h1 := ih (by omega) (fun j hj => hp j (by omega))
      have hpn : ¬ p n = true := fun h => hin ((hp n (by omega)).1 h).symm
      rw [h1, if_neg hpn]

theorem active_released_admitted (before after : List Self_Conn) :
    active_count after + released before after
      = active_count before + admitted before after := by
  unfold active_count released admitted
  apply countP_range_identity
  intro j _
  generalize (after.getD j default).status = a
  generalize (before.getD j default).status = b
  by_cases ha : a = 0 <;> by_cases hb : b = 0 <;> simp [ha, hb]

theorem admitted_eq_zero (before after : List Self_Conn)
    (h : ∀ j, j < SELF_CONN_MAX → (after.getD j default).status ≠ 0 →
      (before.getD j default).status ≠ 0) : admitted before after = 0 := by
  unfold admitted
  rw [List.countP_eq_zero]
  intro a ha
  have := h a (List.mem_range.1 ha)
  simp only [decide_eq_true_eq, not_and, not_not]
  intro hb
  by_contra hne
  exact this hne hb

theorem released_eq_zero (before after : List Self_Conn)
    (h : ∀ j, j < SELF_CONN_MAX → (before.getD j default).status ≠ 0 →
      (after.getD j default).status ≠ 0) : released before after = 0 := by
  unfold released
  rw [List.countP_eq_zero]
  intro a ha
  have := h a (List.mem_range.1 ha)
  simp only [decide_eq_true_eq, not_and]
  intro hb
  exact this hb

theorem admitted_set_free (conns : List Self_Conn) (i : Nat) (c : Self_Conn)
    (hi : i < SELF_CONN_MAX) (hlen : conns.length = SELF_CONN_MAX)
    (hfree : (conns.getD i default).status = 0) (hc : c.status ≠ 0) :
    admitted conns (conns.set i c) = 1 := by
  unfold admitted
  apply countP_range_single _ i _ hi
  intro j _
  simp only [decide_eq_true_eq]
  by_cases hji : j = i
  · subst hji
    rw [getD_set_self _ _ _ (by omega)]
    exact ⟨fun _ => rfl, fun _ => ⟨hfree, hc⟩⟩
  · rw [getD_set_ne _ _ _ _ hji]
    constructor
    · rintro ⟨h1, h2⟩; exact absurd h1 h2
    · intro h; exact absurd h hji

theorem active_count_all (conns : List Self_Conn)
    (h : ∀ l, l < SELF_CONN_MAX → (conns.getD l default).status ≠ 0) :
    active_count conns = SELF_CONN_MAX := by
  unfold active_count
  have : (List.range SELF_CONN_MAX).countP
      (fun i => decide ((conns.getD i default).status ≠ 0))
      = (List.range SELF_CONN_MAX).length := by
    rw [List.countP_eq_length]
    intro a ha
    simpa using h a (List.mem_range.1 ha)
  rw [this, List.length_range]

theorem active_count_le (conns : List Self_Conn) : active_count conns ≤ SELF_CONN_MAX := by
  unfold active_count
  have := List.countP_le_length (fun i => decide ((conns.getD i default).status ≠ 0))
    (l := List.range SELF_CONN_MAX)
  rw [List.length_range] at this
  exact this

/-! ## The loop of `do_self_connections` -/

theorem getD_default_of_le (l : List Self_Conn) (j : Nat) (h : l.length ≤ j) :
    l.getD j default = default := by
  simp [List.getD_eq_getElem?_getD, List.getElem?_eq_none h]

theorem do_self_connections_fold (self_c : Self_Connections) (now : Nat)
    (write_ret : Nat → Int) : ∀ k : Nat,
    ((List.range k).foldl (do_self_connections_body now write_ret) (self_c, [])).1.num_cons
      = self_c.num_cons ∧
    ((List.range k).foldl (do_self_connections_body now write_ret) (self_c, [])).1.net_crypto
      = self_c.net_crypto ∧
    ((List.range k).foldl (do_self_connections_body now write_ret) (self_c, [])).1.cb
      = self_c.cb ∧
    ((List.range k).foldl (do_self_connections_body now write_ret)
      (self_c, [])).1.conns.length = self_c.conns.length ∧
    (∀ j, ((List.range k).foldl (do_self_connections_body now write_ret)
        (self_c, [])).1.conns.getD j default
      = if j < k then tick_slot now (write_ret j) (self_c.conns.getD j default)
        else self_c.conns.getD j default) ∧
    ((List.range k).foldl (do_self_connections_body now write_ret) (self_c, [])).2
      = tick_calls self_c now write_ret k := by
  intro k
  induction k with
  | zero =>
    refine ⟨rfl, rfl, rfl, rfl, fun j => ?_, rfl⟩
    simp
  | succ k ih =>
    rw [List.range_succ, List.foldl_append]
    generalize (List.range k).foldl (do_self_connections_body now write_ret) (self_c, []) = st
      at ih ⊢
    obtain ⟨h1, h2, h3, h4, h5, h6⟩ := ih
    have hk : st.1.conns.getD k default = self_c.conns.getD k default := by
      rw [h5 k, if_neg (lt_irrefl k)]
    simp only [List.foldl_cons, List.foldl_nil]
    unfold do_self_connections_body
    rw [hk]
    have hcalls : tick_calls self_c now write_ret (k + 1)
        = tick_calls self_c now write_ret k ++
          (if (self_c.conns.getD k default).status = 0 then []
            else (do_self_connections_conn now (write_ret k)
              (self_c.conns.getD k default)).2) := by
      unfold tick_calls
      rw [List.range_succ, List.map_append, List.flatten_append]
      simp
    by_cases hs : (self_c.conns.getD k default).status = 0
    · simp only [if_pos hs]
      refine ⟨h1, h2, h3, h4, fun j => ?_, ?_⟩
      · rw [h5 j]
        by_cases hjk : j = k
        · subst hjk
          rw [if_neg (lt_irrefl j), if_pos (Nat.lt_succ_self j)]
          unfold tick_slot
          rw [if_pos hs]
        · by_cases hlt : j < k
          · rw [if_pos hlt, if_pos (by omega)]
          · rw [if_neg hlt, if_neg (by omega)]
      · rw [hcalls, if_pos hs, List.append_nil]; exact h6
    · simp only [if_neg hs]
      refine ⟨h1, h2, h3, ?_, fun j => ?_, ?_⟩
      · show (st.1.conns.set k _).length = _
        rw [List.length_set]; exact h4
      · show (st.1.conns.set k _).getD j default = _
        by_cases hjk : j = k
        · subst hjk
          have hlt : j < st.1.conns.length := by
            rw [h4]
            by_contra hge
            apply hs
            rw [getD_default_of_le _ _ (by omega)]
            rfl
          rw [getD_set_self _ _ _ hlt, if_pos (Nat.lt_succ_self j)]
          unfold tick_slot
          rw [if_neg hs]
        · rw [getD_set_ne _ _ _ _ hjk, h5 j]
          by_cases hlt : j < k
          · rw [if_pos hlt, if_pos (by omega)]
          · rw [if_neg hlt, if_neg (by omega)]
      · rw [hcalls, if_neg hs, ← h6]

theorem do_self_connections_spec (self_c : Self_Connections) (now : Nat)
    (write_ret : Nat → Int) :
    (do_self_connections self_c now write_ret).1.num_cons = self_c.num_cons ∧
    (do_self_connections self_c now write_ret).1.net_crypto = self_c.net_crypto ∧
    (do_self_connections self_c now write_ret).1.cb = self_c.cb ∧
    (do_self_connections self_c now write_ret).1.conns.length = self_c.conns.length ∧
    (∀ j, (do_self_connections self_c now write_ret).1.conns.getD j default
      = if j < SELF_CONN_MAX then tick_slot now (write_ret j) (self_c.conns.getD j default)
        else self_c.conns.getD j default) ∧
    (do_self_connections self_c now write_ret).2
      = tick_calls self_c now write_ret SELF_CONN_MAX := by
  unfold do_self_connections
  exact do_self_connections_fold self_c now write_ret SELF_CONN_MAX

theorem tick_slot_status (now : Nat) (ret : Int) (conn : Self_Conn) :
    (tick_slot now ret conn).status =
      if conn.status ≠ 0 ∧ (conn.ping_lastrecv + SELF_CONNECTION_TIMEOUT) % UINT64_MOD < now
      then 0 else conn.status := by
  unfold tick_slot
  by_cases hs : conn.status = 0
  · rw [if_pos hs, if_neg (fun h => h.1 hs)]
  · rw [if_neg hs]
    unfold do_self_connections_conn send_ping
    simp only []
    by_cases hp : (conn.ping_lastsent + SELF_PING_INTERVAL) % UINT64_MOD < now <;>
      by_cases hr : ret ≠ -1 <;>
      by_cases ht : (conn.ping_lastrecv + SELF_CONNECTION_TIMEOUT) % UINT64_MOD < now <;>
      simp [hp, hr, ht, hs]

/-! ## The invariant of the table along a run -/

theorem admitted_self (conns : List Self_Conn) : admitted conns conns = 0 :=
  admitted_eq_zero conns conns (fun _ _ h => h)

theorem admitted_set_active (conns : List Self_Conn) (i : Nat) (c : Self_Conn)
    (h : (conns.getD i default).status ≠ 0) : admitted conns (conns.set i c) = 0 := by
  apply admitted_eq_zero
  intro j _ hj
  by_cases hji : j = i
  · subst hji; exact h
  · rw [getD_set_ne _ _ _ _ hji] at hj; exact hj

theorem step_post_self (self_c : Self_Connections) (h : table_ok self_c) :
    step_post self_c self_c :=
  ⟨h.1, by rw [admitted_self]; rfl, h.2.2, rfl, rfl⟩

theorem step_post_set_active (self_c : Self_Connections) (h : table_ok self_c) (i : Nat)
    (c : Self_Conn) (hact : (self_c.conns.getD i default).status ≠ 0) :
    step_post self_c { self_c with conns := self_c.conns.set i c } := by
  refine ⟨?_, ?_, h.2.2, rfl, rfl⟩
  · show (self_c.conns.set i c).length = _
    rw [List.length_set]; exact h.1
  · show self_c.num_cons = self_c.num_cons + admitted self_c.conns (self_c.conns.set i c)
    rw [admitted_set_active _ _ _ hact]; rfl

theorem step_core (self_c : Self_Connections) (e : Event) (h : table_ok self_c) :
    ∃ s1, step self_c e = some s1 ∧ step_post self_c s1 := by
  cases e with
  | new_connection n_c id =>
    simp only [step]
    rcases handle_new_connections_cases self_c n_c id with
      ⟨_, hr⟩ | ⟨_, _, hr⟩ | ⟨_, hroom, hall, _⟩ | ⟨_, hroom, i, hi, hr⟩
    · rw [hr]; exact ⟨self_c, rfl, step_post_self self_c h⟩
    · rw [hr]; exact ⟨self_c, rfl, step_post_self self_c h⟩
    · exfalso
      have := active_count_all self_c.conns hall
      have h2 := h.2.1
      have h3 := h.2.2
      omega
    · rw [hr]
      refine ⟨_, rfl, ?_, ?_, ?_, rfl, rfl⟩
      · show (self_c.conns.set i _).length = _
        rw [List.length_set]; exact h.1
      · show (self_c.num_cons + 1) % UINT32_MOD = self_c.num_cons + admitted self_c.conns
          (self_c.conns.set i _)
        rw [admitted_set_free self_c.conns i _ hi.1 h.1 hi.2.1
          (show SELFCONN_STATUS_CONNECTING ≠ 0 by decide)]
        have h3 := h.2.2
        unfold UINT32_MOD
        unfold SELF_CONN_MAX at h3 hroom
        omega
      · show (self_c.num_cons + 1) % UINT32_MOD ≤ SELF_CONN_MAX
        have h3 := h.2.2
        unfold UINT32_MOD
        unfold SELF_CONN_MAX at h3 hroom ⊢
        omega
  | status number status now =>
    unfold step
    refine ⟨_, rfl, ?_⟩
    by_cases hs : (self_c.conns.getD number default).status = 0
    · rw [handle_status_none self_c number status now hs]
      exact step_post_self self_c h
    · by_cases hst : status = 0
      · subst hst
        rw [handle_status_offline self_c number now hs]
        exact step_post_set_active self_c h number _ hs
      · rw [handle_status_online self_c number status now hs hst]
        exact step_post_set_active self_c h number _ hs
  | packet number data now =>
    unfold step
    refine ⟨_, rfl, ?_⟩
    by_cases hf : data.length = 0 ∨ (self_c.conns.getD number default).status = 0
    · rw [handle_packet_fail self_c number data now hf]
      exact step_post_self self_c h
    · have hact : (self_c.conns.getD number default).status ≠ 0 := fun e => hf (Or.inr e)
      have hdata : data ≠ [] := by
        intro e; apply hf; left; rw [e]; rfl
      by_cases h1 : data.head? = some PACKET_ID_SELF_ALIVE
      · rw [handle_packet_alive self_c number data now hact h1]
        exact step_post_set_active self_c h number _ hact
      · by_cases h2 : data.head? = some PACKET_ID_SELF_FRIENDNAME
        · rw [handle_packet_friendname_eq self_c number data now hact h2]
          exact step_post_self self_c h
        · rw [handle_packet_other self_c number data now hact hdata h1 h2]
          exact step_post_self self_c h
  | lossy_packet number data =>
    unfold step
    refine ⟨_, rfl, ?_⟩
    rw [handle_lossy_packet_eq]
    exact step_post_self self_c h
  | tick now write_ret =>
    unfold step
    refine ⟨_, rfl, ?_⟩
    obtain ⟨t1, t2, t3, t4, t5, _⟩ := do_self_connections_spec self_c now write_ret
    refine ⟨by rw [t4]; exact h.1, ?_, by rw [t1]; exact h.2.2, t2, t3⟩
    rw [t1, admitted_eq_zero]
    · rfl
    · intro j hj hne
      rw [t5 j, if_pos hj, tick_slot_status] at hne
      by_cases hc : (self_c.conns.getD j default).status ≠ 0 ∧
          ((self_c.conns.getD j default).ping_lastrecv + SELF_CONNECTION_TIMEOUT) % UINT64_MOD
            < now
      · rw [if_pos hc] at hne; exact absurd rfl hne
      · rw [if_neg hc] at hne; exact hne
  | sync_friend friend_id packet_id data =>
    exact ⟨self_c, rfl, step_post_self self_c h⟩

theorem table_ok_of_step_post (self_c s1 : Self_Connections) (h : table_ok self_c)
    (hp : step_post self_c s1) : table_ok s1 := by
  obtain ⟨p1, p2, p3, _, _⟩ := hp
  refine ⟨p1, ?_, p3⟩
  have := active_released_admitted self_c.conns s1.conns
  have h2 := h.2.1
  omega

theorem table_ok_fresh (net_crypto : Net_Crypto) (cb : Self_Callbacks) :
    table_ok (fresh net_crypto cb) := by
  refine ⟨by simp [fresh], ?_, by simp [fresh]⟩
  have : active_count (fresh net_crypto cb).conns = 0 := by
    unfold active_count
    rw [List.countP_eq_zero]
    intro a ha
    have := List.mem_range.1 ha
    simp only [fresh, decide_eq_true_eq, ne_eq, not_not]
    rw [List.getD_eq_getElem?_getD, List.getElem?_replicate]
    simp [this]
    rfl
  rw [this]; exact Nat.zero_le _

theorem run_accounting : ∀ (evs : List Event) (self_c : Self_Connections),
    table_ok self_c →
    ∃ s1, run self_c evs = some s1 ∧ table_ok s1 ∧
      s1.net_crypto = self_c.net_crypto ∧ s1.cb = self_c.cb ∧
      s1.num_cons + active_count self_c.conns
        = self_c.num_cons + active_count s1.conns + run_released self_c evs := by
  intro evs
  induction evs with
  | nil =>
    intro self_c h
    exact ⟨self_c, rfl, h, rfl, rfl, rfl⟩
  | cons e es ih =>
    intro self_c h
    obtain ⟨s1, hs1, hp⟩ := step_core self_c e h
    have hok := table_ok_of_step_post self_c s1 h hp
    obtain ⟨s2, hs2, hok2, hn, hc, hacc⟩ := ih s1 hok
    refine ⟨s2, ?_, hok2, ?_, ?_, ?_⟩
    · simp only [run, hs1]; exact hs2
    · rw [hn]; exact hp.2.2.2.1
    · rw [hc]; exact hp.2.2.2.2
    · simp only [run_released, hs1]
      have := active_released_admitted self_c.conns s1.conns
      have := hp.2.1
      omega

theorem table_ok_of_reachable (self_c : Self_Connections) (h : Reachable self_c) :
    table_ok self_c := by
  obtain ⟨nc, cb, evs, _, hrun⟩ := h
  obtain ⟨s1, hs1, hok, _⟩ := run_accounting evs (fresh nc cb) (table_ok_fresh nc cb)
  rw [hs1] at hrun
  cases hrun
  exact hok

/-! ## Consecutive admissions into a fresh table -/

theorem set_append_length (pre : List Self_Conn) (a b : Self_Conn) (t : List Self_Conn) :
    (pre ++ a :: t).set pre.length b = pre ++ b :: t := by
  induction pre with
  | nil => rfl
  | cons x xs ih => simp only [List.cons_append, List.length_cons, List.set_cons_succ, ih]

theorem getD_append_length (pre : List Self_Conn) (a : Self_Conn) (t : List Self_Conn) :
    (pre ++ a :: t).getD pre.length default = a := by
  induction pre with
  | nil => rfl
  | cons x xs ih => simp only [List.cons_append, List.length_cons, List.getD_cons_succ, ih]

theorem getD_append_lt (pre t : List Self_Conn) (l : Nat) (h : l < pre.length) :
    (pre ++ t).getD l default ∈ pre := by
  induction pre generalizing l with
  | nil => simp at h
  | cons x xs ih =>
    cases l with
    | zero => simp
    | succ l =>
      simp only [List.cons_append, List.getD_cons_succ]
      exact List.mem_cons_of_mem _ (ih l (by simpa using h))

theorem admit_list_from (nc : Net_Crypto) (cb : Self_Callbacks) :
    ∀ (rs : List (New_Connection × Int)) (pre : List Self_Conn),
    (∀ c, c ∈ pre → c.status ≠ 0) → pre.length + rs.length ≤ SELF_CONN_MAX →
    (∀ r, r ∈ rs → same_key r.1.public_key nc.self_public_key) →
    admit_list
        { net_crypto := nc
          conns := pre ++ List.replicate (SELF_CONN_MAX - pre.length) default
          num_cons := pre.length
          cb := cb } rs
      = some (List.replicate rs.length 0,
          { net_crypto := nc
            conns := (pre ++ rs.map admitted_slot) ++
              List.replicate (SELF_CONN_MAX - (pre.length + rs.length)) default
            num_cons := pre.length + rs.length
            cb := cb }) := by
  intro rs
  induction rs with
  | nil =>
    intro pre _ _ _
    simp [admit_list]
  | cons r rest ih =>
    intro pre hpre hlen hkey
    have hlen2 : pre.length + (rest.length + 1) ≤ SELF_CONN_MAX := by simpa using hlen
    obtain ⟨m, hm⟩ : ∃ m, SELF_CONN_MAX - pre.length = m + 1 := ⟨SELF_CONN_MAX - pre.length - 1, by omega⟩
    have hrep : List.replicate (SELF_CONN_MAX - pre.length) (default : Self_Conn)
        = default :: List.replicate m default := by
      rw [hm, List.replicate_succ]
    have hff : first_free (pre ++ List.replicate (SELF_CONN_MAX - pre.length) default)
        pre.length := by
      refine ⟨by omega, ?_, ?_⟩
      · rw [hrep, getD_append_length]; rfl
      · intro l hl
        exact hpre _ (getD_append_lt pre _ l hl)
    have hroom : pre.length ≠ SELF_CONN_MAX := by omega
    have hstep := handle_new_connections_free
      { net_crypto := nc
        conns := pre ++ List.replicate (SELF_CONN_MAX - pre.length) default
        num_cons := pre.length
        cb := cb } r.1 r.2 pre.length (hkey r (List.mem_cons_self _ _)) hroom hff
    have hih := ih (pre ++ [admitted_slot r])
      (by
        intro c hc
        rcases List.mem_append.1 hc with h | h
        · exact hpre c h
        · have : c = admitted_slot r := by simpa using h
          rw [this]; exact (show SELFCONN_STATUS_CONNECTING ≠ 0 by decide))
      (by simp only [List.length_append, List.length_singleton]; omega)
      (fun x hx => hkey x (List.mem_cons_of_mem _ hx))
    have hnum : (pre.length + 1) % UINT32_MOD = pre.length + 1 := by
      unfold UINT32_MOD
      unfold SELF_CONN_MAX at hlen2
      omega
    have hconns : (pre ++ List.replicate (SELF_CONN_MAX - pre.length) default).set pre.length
          { (pre ++ List.replicate (SELF_CONN_MAX - pre.length) default).getD pre.length default
            with status := SELFCONN_STATUS_CONNECTING, crypt_connection_id := r.2 }
        = (pre ++ [admitted_slot r]) ++
          List.replicate (SELF_CONN_MAX - (pre ++ [admitted_slot r]).length) default := by
      have hm2 : SELF_CONN_MAX - (pre ++ [admitted_slot r]).length = m := by
        simp only [List.length_append, List.length_singleton]; omega
      rw [hm2, hrep, getD_append_length, set_append_length, List.append_assoc]
      rfl
    simp only [admit_list, hstep, hconns, hnum]
    have hlen3 : (pre ++ [admitted_slot r]).length = pre.length + 1 := by simp
    rw [hlen3] at hih
    rw [hlen3, hih]
    simp only [List.length_cons, List.replicate_succ, List.map_cons, List.append_assoc,
      List.singleton_append, Nat.add_assoc, Nat.add_comm 1]

/-! ## Further lemmas used by the claims -/

theorem same_key_refl (a : List Nat) : same_key a a := fun _ _ => rfl

theorem mgr_released_reachable : Reachable mgr_released := by
  refine ⟨⟨key_local⟩, ⟨true⟩,
    [Event.new_connection ⟨key_local⟩ 40, Event.status 0 0 5], ?_, by decide⟩
  intro e he
  simp only [List.mem_cons, List.mem_singleton, List.not_mem_nil, or_false] at he
  rcases he with rfl | rfl
  · trivial
  · show 0 < SELF_CONN_MAX
    decide

theorem first_free_exists (self_c : Self_Connections) (h : table_ok self_c)
    (hroom : self_c.num_cons ≠ SELF_CONN_MAX) : ∃ i, first_free self_c.conns i := by
  cases hscan : new_conn_scan self_c.conns SELF_CONN_MAX 0 with
  | none =>
    exfalso
    have hall := (new_conn_scan_spec self_c.conns SELF_CONN_MAX 0).2 hscan
    have := active_count_all self_c.conns (fun l hl => hall l (Nat.zero_le _) (by omega))
    have h2 := h.2.1
    have h3 := h.2.2
    omega
  | some i => exact ⟨i, first_free_of_scan self_c.conns i hscan⟩

theorem do_self_connections_conn_calls (now : Nat) (ret : Int) (conn : Self_Conn) :
    (do_self_connections_conn now ret conn).2 =
      (if (conn.ping_lastsent + SELF_PING_INTERVAL) % UINT64_MOD < now then
        [Call.write_cryptpacket conn.crypt_connection_id [PACKET_ID_SELF_ALIVE]] else []) ++
      (if (conn.ping_lastrecv + SELF_CONNECTION_TIMEOUT) % UINT64_MOD < now then
        [Call.crypto_kill conn.crypt_connection_id] else []) := by
  unfold do_self_connections_conn send_ping
  simp only []
  by_cases hp : (conn.ping_lastsent + SELF_PING_INTERVAL) % UINT64_MOD < now <;>
    by_cases hr : ret ≠ -1 <;>
    by_cases ht : (conn.ping_lastrecv + SELF_CONNECTION_TIMEOUT) % UINT64_MOD < now <;>
    simp [hp, hr, ht]

theorem flatten_map_filter {α β : Type} (f : α → List β) (p : β → Bool) (c : α → Bool)
    (g : α → β) (h : ∀ a, (f a).filter p = if c a then [g a] else []) :
    ∀ l : List α, ((l.map f).flatten).filter p = (l.filter c).map g := by
  intro l
  induction l with
  | nil => rfl
  | cons a t ih =>
    rw [List.map_cons, List.flatten_cons, List.filter_append, ih, h a, List.filter_cons]
    by_cases hc : c a = true
    · rw [if_pos hc, if_pos hc]; rfl
    · rw [if_neg hc, if_neg hc]; rfl

/-! ## Lemmas on the tick, the broadcast and the timestamps -/

theorem tick_slot_eq (now : Nat) (ret : Int) (conn : Self_Conn) :
    tick_slot now ret conn =
      { conn with
        status :=
          if conn.status ≠ 0 ∧
              (conn.ping_lastrecv + SELF_CONNECTION_TIMEOUT) % UINT64_MOD < now
          then 0 else conn.status
        ping_lastsent :=
          if conn.status ≠ 0 ∧
              (conn.ping_lastsent + SELF_PING_INTERVAL) % UINT64_MOD < now ∧ ret ≠ -1
          then now else conn.ping_lastsent } := by
  unfold tick_slot
  by_cases hs : conn.status = 0
  · rw [if_pos hs, if_neg (fun h => h.1 hs), if_neg (fun h => h.1 hs)]
  · rw [if_neg hs]
    unfold do_self_connections_conn send_ping
    simp only []
    by_cases hp : (conn.ping_lastsent + SELF_PING_INTERVAL) % UINT64_MOD < now <;>
      by_cases hr : ret = -1 <;>
      by_cases ht : (conn.ping_lastrecv + SELF_CONNECTION_TIMEOUT) % UINT64_MOD < now <;>
      simp [hp, hr, ht, hs]

theorem foldl_active_calls (conns : List Self_Conn) (g : Self_Conn → Call) :
    ∀ (l : List Nat) (acc : List Call),
      l.foldl (fun calls i =>
          if (conns.getD i default).status = 0 then calls
          else calls ++ [g (conns.getD i default)]) acc
        = acc ++ (l.filter (fun i => decide ((conns.getD i default).status ≠ 0))).map
            (fun i => g (conns.getD i default)) := by
  intro l
  induction l with
  | nil => intro acc; simp
  | cons a t ih =>
    intro acc
    rw [List.foldl_cons, ih, List.filter_cons]
    by_cases hs : (conns.getD a default).status = 0
    · have hd : decide ((conns.getD a default).status ≠ 0) = false :=
        decide_eq_false (fun h => h hs)
      rw [if_pos hs, hd]
      rfl
    · have hd : decide ((conns.getD a default).status ≠ 0) = true := decide_eq_true hs
      rw [if_neg hs, hd]
      simp only [if_true, List.map_cons, List.append_assoc, List.singleton_append]

theorem int_to_bytes_layout (f : Int) :
    ∃ b0 b1 b2 b3 : Nat, int_to_bytes f = [b0, b1, b2, b3] ∧
      b0 < 256 ∧ b1 < 256 ∧ b2 < 256 ∧ b3 < 256 ∧
      ((b0 + 256 * b1 + 65536 * b2 + 16777216 * b3 : Nat) : Int) = f % 2 ^ 32 := by
  refine ⟨_, _, _, _, rfl, ?_, ?_, ?_, ?_, ?_⟩ <;> omega

theorem do_self_connections_getD (self_c : Self_Connections) (now : Nat)
    (write_ret : Nat → Int) (j : Nat) (hj : j < SELF_CONN_MAX) :
    (do_self_connections self_c now write_ret).1.conns.getD j default
      = tick_slot now (write_ret j) (self_c.conns.getD j default) := by
  rw [(do_self_connections_spec self_c now write_ret).2.2.2.2.1 j, if_pos hj]

theorem do_self_connections_writes (self_c : Self_Connections) (now : Nat)
    (write_ret : Nat → Int) :
    (do_self_connections self_c now write_ret).2.filter Call.is_write =
      ((List.range SELF_CONN_MAX).filter (fun j =>
        decide ((self_c.conns.getD j default).status ≠ 0 ∧
          ((self_c.conns.getD j default).ping_lastsent + SELF_PING_INTERVAL) % UINT64_MOD
            < now))).map
        (fun j => Call.write_cryptpacket (self_c.conns.getD j default).crypt_connection_id
          [PACKET_ID_SELF_ALIVE]) := by
  rw [(do_self_connections_spec self_c now write_ret).2.2.2.2.2]
  unfold tick_calls
  apply flatten_map_filter
  intro j
  by_cases hs : (self_c.conns.getD j default).status = 0
  · have hc : ¬ ((self_c.conns.getD j default).status ≠ 0 ∧
        ((self_c.conns.getD j default).ping_lastsent + SELF_PING_INTERVAL) % UINT64_MOD
          < now) := fun h => h.1 hs
    rw [if_pos hs, decide_eq_false hc]
    rfl
  · rw [if_neg hs, do_self_connections_conn_calls]
    by_cases ht : ((self_c.conns.getD j default).ping_lastrecv + SELF_CONNECTION_TIMEOUT)
        % UINT64_MOD < now <;>
      by_cases hp : ((self_c.conns.getD j default).ping_lastsent + SELF_PING_INTERVAL)
        % UINT64_MOD < now
    · rw [if_pos hp, if_pos ht, decide_eq_true (⟨hs, hp⟩ : _ ∧ _)]; rfl
    · rw [if_neg hp, if_pos ht, decide_eq_false (fun h : _ ∧ _ => hp h.2)]; rfl
    · rw [if_pos hp, if_neg ht, decide_eq_true (⟨hs, hp⟩ : _ ∧ _)]; rfl
    · rw [if_neg hp, if_neg ht, decide_eq_false (fun h : _ ∧ _ => hp h.2)]; rfl

theorem do_self_connections_kills (self_c : Self_Connections) (now : Nat)
    (write_ret : Nat → Int) :
    (do_self_connections self_c now write_ret).2.filter Call.is_kill =
      ((List.range SELF_CONN_MAX).filter (fun j =>
        decide ((self_c.conns.getD j default).status ≠ 0 ∧
          ((self_c.conns.getD j default).ping_lastrecv + SELF_CONNECTION_TIMEOUT) % UINT64_MOD
            < now))).map
        (fun j => Call.crypto_kill (self_c.conns.getD j default).crypt_connection_id) := by
  rw [(do_self_connections_spec self_c now write_ret).2.2.2.2.2]
  unfold tick_calls
  apply flatten_map_filter
  intro j
  by_cases hs : (self_c.conns.getD j default).status = 0
  · have hc : ¬ ((self_c.conns.getD j default).status ≠ 0 ∧
        ((self_c.conns.getD j default).ping_lastrecv + SELF_CONNECTION_TIMEOUT) % UINT64_MOD
          < now) := fun h => h.1 hs
    rw [if_pos hs, decide_eq_false hc]
    rfl
  · rw [if_neg hs, do_self_connections_conn_calls]
    by_cases ht : ((self_c.conns.getD j default).ping_lastrecv + SELF_CONNECTION_TIMEOUT)
        % UINT64_MOD < now <;>
      by_cases hp : ((self_c.conns.getD j default).ping_lastsent + SELF_PING_INTERVAL)
        % UINT64_MOD < now
    · rw [if_pos hp, if_pos ht, decide_eq_true (⟨hs, ht⟩ : _ ∧ _)]; rfl
    · rw [if_neg hp, if_pos ht, decide_eq_true (⟨hs, ht⟩ : _ ∧ _)]; rfl
    · rw [if_pos hp, if_neg ht, decide_eq_false (fun h : _ ∧ _ => ht h.2)]; rfl
    · rw [if_neg hp, if_neg ht, decide_eq_false (fun h : _ ∧ _ => ht h.2)]; rfl

theorem count_kill_tick (self_c : Self_Connections) (now : Nat) (write_ret : Nat → Int)
    (j : Nat) (hj : j < SELF_CONN_MAX)
    (hu : id_unique self_c.conns j (self_c.conns.getD j default).crypt_connection_id) :
    (((self_c.conns.getD j default).status ≠ 0 ∧
        ((self_c.conns.getD j default).ping_lastrecv + SELF_CONNECTION_TIMEOUT) % UINT64_MOD
          < now) →
      (do_self_connections self_c now write_ret).2.count
        (Call.crypto_kill (self_c.conns.getD j default).crypt_connection_id) = 1) ∧
    (¬ ((self_c.conns.getD j default).status ≠ 0 ∧
        ((self_c.conns.getD j default).ping_lastrecv + SELF_CONNECTION_TIMEOUT) % UINT64_MOD
          < now) →
      (do_self_connections self_c now write_ret).2.count
        (Call.crypto_kill (self_c.conns.getD j default).crypt_connection_id) = 0) := by
  have hcount : (do_self_connections self_c now write_ret).2.count
      (Call.crypto_kill (self_c.conns.getD j default).crypt_connection_id)
      = (List.range SELF_CONN_MAX).countP (fun i =>
          decide (((self_c.conns.getD i default).status ≠ 0 ∧
            ((self_c.conns.getD i default).ping_lastrecv + SELF_CONNECTION_TIMEOUT)
              % UINT64_MOD < now) ∧
            (self_c.conns.getD i default).crypt_connection_id
              = (self_c.conns.getD j default).crypt_connection_id)) := by
    rw [← List.count_filter (p := Call.is_kill) (l := (do_self_connections self_c now write_ret).2)
      (show Call.is_kill (Call.crypto_kill _) = true from rfl),
      do_self_connections_kills, List.count_eq_countP, List.countP_map, List.countP_filter]
    apply List.countP_congr
    intro i _
    simp only [Function.comp, Bool.and_eq_true, beq_iff_eq, Call.crypto_kill.injEq,
      decide_eq_true_eq]
    exact ⟨fun h => ⟨h.2, h.1⟩, fun h => ⟨h.2, h.1⟩⟩
  constructor
  · intro hc
    rw [hcount]
    apply countP_range_single _ j _ hj
    intro i hi
    rw [decide_eq_true_eq]
    constructor
    · rintro ⟨hci, hid⟩
      by_contra hne
      exact hu i hi hne hci.1 hid
    · intro h; subst h; exact ⟨hc, rfl⟩
  · intro hc
    rw [hcount, List.countP_eq_zero]
    intro i hi
    rw [decide_eq_true_eq]
    rintro ⟨hci, hid⟩
    by_cases hne : i = j
    · subst hne; exact hc hci
    · exact hu i (List.mem_range.1 hi) hne hci.1 hid

theorem id_unique_tick (self_c : Self_Connections) (now : Nat) (write_ret : Nat → Int)
    (j : Nat) (x : Int) (hu : id_unique self_c.conns j x) :
    id_unique (do_self_connections self_c now write_ret).1.conns j x := by
  intro i hi hne hs
  rw [do_self_connections_getD self_c now write_ret i hi] at hs ⊢
  rw [tick_slot_status] at hs
  have hs0 : (self_c.conns.getD i default).status ≠ 0 := by
    by_cases hc : (self_c.conns.getD i default).status ≠ 0 ∧
        ((self_c.conns.getD i default).ping_lastrecv + SELF_CONNECTION_TIMEOUT) % UINT64_MOD
          < now
    · exact hc.1
    · rw [if_neg hc] at hs; exact hs
  rw [tick_slot_eq]
  exact hu i hi hne hs0

theorem run_ticks_slot (j : Nat) (hj : j < SELF_CONN_MAX) (x : Int) (t0 : Nat) :
    ∀ (ticks : List (Nat × (Nat → Int))) (self_c : Self_Connections),
    id_unique self_c.conns j x →
    (self_c.conns.getD j default).crypt_connection_id = x →
    (self_c.conns.getD j default).ping_lastrecv = t0 →
    (((self_c.conns.getD j default).status ≠ 0 ∧
        ∃ t, t ∈ ticks ∧ (t0 + SELF_CONNECTION_TIMEOUT) % UINT64_MOD < t.1) →
      ((run_ticks self_c ticks).1.conns.getD j default).status = 0 ∧
      (run_ticks self_c ticks).2.count (Call.crypto_kill x) = 1) ∧
    (¬ ((self_c.conns.getD j default).status ≠ 0 ∧
        ∃ t, t ∈ ticks ∧ (t0 + SELF_CONNECTION_TIMEOUT) % UINT64_MOD < t.1) →
      ((run_ticks self_c ticks).1.conns.getD j default).status
        = (self_c.conns.getD j default).status ∧
      (run_ticks self_c ticks).2.count (Call.crypto_kill x) = 0) := by
  intro ticks
  induction ticks with
  | nil =>
    intro self_c _ _ _
    constructor
    · rintro ⟨_, t, ht, _⟩; exact absurd ht (List.not_mem_nil t)
    · intro _; exact ⟨rfl, rfl⟩
  | cons t rest ih =>
    intro self_c hu hid hrecv
    have hslot := do_self_connections_getD self_c t.1 t.2 j hj
    rw [tick_slot_eq] at hslot
    have hid1 : ((do_self_connections self_c t.1 t.2).1.conns.getD j default).crypt_connection_id
        = x := by rw [hslot]; exact hid
    have hrecv1 : ((do_self_connections self_c t.1 t.2).1.conns.getD j default).ping_lastrecv
        = t0 := by rw [hslot]; exact hrecv
    have hst1 : ((do_self_connections self_c t.1 t.2).1.conns.getD j default).status
        = if (self_c.conns.getD j default).status ≠ 0 ∧
            ((self_c.conns.getD j default).ping_lastrecv + SELF_CONNECTION_TIMEOUT)
              % UINT64_MOD < t.1
          then 0 else (self_c.conns.getD j default).status := by rw [hslot]
    rw [hrecv] at hst1
    obtain ⟨ih1, ih2⟩ := ih (do_self_connections self_c t.1 t.2).1
      (id_unique_tick self_c t.1 t.2 j x hu) hid1 hrecv1
    have hk := count_kill_tick self_c t.1 t.2 j hj (by rw [hid]; exact hu)
    rw [hid, hrecv] at hk
    obtain ⟨hk1, hk2⟩ := hk
    simp only [run_ticks, List.count_append]
    by_cases hnow : (self_c.conns.getD j default).status ≠ 0 ∧
        (t0 + SELF_CONNECTION_TIMEOUT) % UINT64_MOD < t.1
    · rw [if_pos hnow] at hst1
      have hrest := ih2 (fun h => h.1 hst1)
      constructor
      · intro _
        refine ⟨by rw [hrest.1, hst1], ?_⟩
        rw [hk1 hnow, hrest.2]
      · intro hn
        exact absurd ⟨hnow.1, t, List.mem_cons_self _ _, hnow.2⟩ hn
    · rw [if_neg hnow] at hst1
      have hk0 := hk2 hnow
      constructor
      · rintro ⟨hs, u, hu1, hu2⟩
        have hur : u ∈ rest := by
          rcases List.mem_cons.1 hu1 with h | h
          · subst h; exact absurd ⟨hs, hu2⟩ hnow
          · exact h
        have hrest := ih1 ⟨by rw [hst1]; exact hs, u, hur, hu2⟩
        refine ⟨hrest.1, ?_⟩
        rw [hk0, hrest.2]
      · intro hn
        have hrest := ih2 (by
          rintro ⟨hs, u, hu1, hu2⟩
          exact hn ⟨by rw [← hst1]; exact hs, u, List.mem_cons_of_mem _ hu1, hu2⟩)
        refine ⟨by rw [hrest.1, hst1], ?_⟩
        rw [hk0, hrest.2]

theorem getD_set_field {α : Type} (f : Self_Conn → α) (l : List Self_Conn) (i j : Nat)
    (c : Self_Conn) (h : f c = f (l.getD i default)) :
    f ((l.set i c).getD j default) = f (l.getD j default) := by
  by_cases hji : j = i
  · subst hji
    by_cases hlt : j < l.length
    · rw [getD_set_self _ _ _ hlt, h]
    · rw [List.set_eq_of_length_le (by omega)]
  · rw [getD_set_ne _ _ _ _ hji]

theorem handle_packet_nonalive (self_c : Self_Connections) (number : Nat) (data : List Nat)
    (now : Nat) (h1 : data.head? ≠ some PACKET_ID_SELF_ALIVE) :
    (handle_packet self_c number data now).2.1 = self_c := by
  by_cases hf : data.length = 0 ∨ (self_c.conns.getD number default).status = 0
  · rw [handle_packet_fail self_c number data now hf]
  · have hact : (self_c.conns.getD number default).status ≠ 0 := fun e => hf (Or.inr e)
    have hdata : data ≠ [] := by
      intro e; apply hf; left; rw [e]; rfl
    by_cases h2 : data.head? = some PACKET_ID_SELF_FRIENDNAME
    · rw [handle_packet_friendname_eq self_c number data now hact h2]
    · rw [handle_packet_other self_c number data now hact hdata h1 h2]

theorem same_stamps_set (l : List Self_Conn) (i : Nat) (c : Self_Conn)
    (h1 : c.ping_lastrecv = (l.getD i default).ping_lastrecv)
    (h2 : c.ping_lastsent = (l.getD i default).ping_lastsent) :
    same_stamps (l.set i c) l :=
  fun j => ⟨getD_set_field Self_Conn.ping_lastrecv l i j c h1,
    getD_set_field Self_Conn.ping_lastsent l i j c h2⟩

theorem handle_new_connections_stamps (self_c : Self_Connections) (n_c : New_Connection)
    (id : Int) (r : Int) (s1 : Self_Connections) (calls : List Call)
    (h : handle_new_connections self_c n_c id = some (r, s1, calls)) :
    same_stamps s1.conns self_c.conns := by
  rcases handle_new_connections_cases self_c n_c id with
    ⟨_, hr⟩ | ⟨_, _, hr⟩ | ⟨_, _, _, hr⟩ | ⟨_, _, i, _, hr⟩
  · rw [hr] at h
    simp only [Option.some.injEq, Prod.mk.injEq] at h
    rw [← h.2.1]; exact fun _ => ⟨rfl, rfl⟩
  · rw [hr] at h
    simp only [Option.some.injEq, Prod.mk.injEq] at h
    rw [← h.2.1]; exact fun _ => ⟨rfl, rfl⟩
  · rw [hr] at h; simp at h
  · rw [hr] at h
    simp only [Option.some.injEq, Prod.mk.injEq] at h
    rw [← h.2.1]
    exact same_stamps_set self_c.conns i _ rfl rfl

theorem step_stamps (self_c s1 : Self_Connections) (e : Event) (j : Nat)
    (h : step self_c e = some s1) :
    ((s1.conns.getD j default).ping_lastrecv ≠ (self_c.conns.getD j default).ping_lastrecv →
      (∃ data now, e = Event.packet j data now ∧ data.head? = some PACKET_ID_SELF_ALIVE ∧
        (s1.conns.getD j default).ping_lastrecv = now) ∨
      (∃ status now, e = Event.status j status now ∧ status ≠ 0 ∧
        (s1.conns.getD j default).ping_lastrecv = now)) ∧
    ((s1.conns.getD j default).ping_lastsent ≠ (self_c.conns.getD j default).ping_lastsent →
      ∃ now write_ret, e = Event.tick now write_ret ∧ write_ret j ≠ -1 ∧
        (s1.conns.getD j default).ping_lastsent = now) := by
  cases e with
  | new_connection n_c id =>
    simp only [step] at h
    cases hr : handle_new_connections self_c n_c id with
    | none => rw [hr] at h; simp at h
    | some res =>
      rw [hr] at h
      simp only [Option.some.injEq] at h
      have := handle_new_connections_stamps self_c n_c id res.1 res.2.1 res.2.2 hr j
      rw [h] at this
      exact ⟨fun hne => absurd this.1 hne, fun hne => absurd this.2 hne⟩
  | status number status now =>
    simp only [step, Option.some.injEq] at h
    by_cases hs : (self_c.conns.getD number default).status = 0
    · rw [handle_status_none self_c number status now hs] at h
      rw [← h]
      exact ⟨fun hne => absurd rfl hne, fun hne => absurd rfl hne⟩
    · by_cases hst : status = 0
      · subst hst
        rw [handle_status_offline self_c number now hs] at h
        have := same_stamps_set self_c.conns number
          { self_c.conns.getD number default with status := 0 } rfl rfl j
        rw [← h]
        exact ⟨fun hne => absurd this.1 hne, fun hne => absurd this.2 hne⟩
      · rw [handle_status_online self_c number status now hs hst] at h
        rw [← h]
        constructor
        · intro hne
          right
          by_cases hjn : j = number
          · subst hjn
            refine ⟨status, now, rfl, hst, ?_⟩
            by_cases hlt : j < self_c.conns.length
            · show ((self_c.conns.set j _).getD j default).ping_lastrecv = now
              rw [getD_set_self _ _ _ hlt]
            · exfalso
              apply hne
              show ((self_c.conns.set j _).getD j default).ping_lastrecv = _
              rw [List.set_eq_of_length_le (by omega)]
          · exfalso
            apply hne
            show ((self_c.conns.set number _).getD j default).ping_lastrecv = _
            rw [getD_set_ne _ _ _ _ hjn]
        · intro hne
          exfalso
          apply hne
          exact getD_set_field Self_Conn.ping_lastsent self_c.conns number j _ rfl
  | packet number data now =>
    simp only [step, Option.some.injEq] at h
    by_cases hf : data.length = 0 ∨ (self_c.conns.getD number default).status = 0
    · rw [handle_packet_fail self_c number data now hf] at h
      rw [← h]
      exact ⟨fun hne => absurd rfl hne, fun hne => absurd rfl hne⟩
    · have hact : (self_c.conns.getD number default).status ≠ 0 := fun e => hf (Or.inr e)
      have hdata : data ≠ [] := by
        intro e; apply hf; left; rw [e]; rfl
      by_cases h1 : data.head? = some PACKET_ID_SELF_ALIVE
      · rw [handle_packet_alive self_c number data now hact h1] at h
        rw [← h]
        constructor
        · intro hne
          left
          by_cases hjn : j = number
          · subst hjn
            refine ⟨data, now, rfl, h1, ?_⟩
            by_cases hlt : j < self_c.conns.length
            · show ((self_c.conns.set j _).getD j default).ping_lastrecv = now
              rw [getD_set_self _ _ _ hlt]
            · exfalso
              apply hne
              show ((self_c.conns.set j _).getD j default).ping_lastrecv = _
              rw [List.set_eq_of_length_le (by omega)]
          · exfalso
            apply hne
            show ((self_c.conns.set number _).getD j default).ping_lastrecv = _
            rw [getD_set_ne _ _ _ _ hjn]
        · intro hne
          exfalso
          apply hne
          exact getD_set_field Self_Conn.ping_lastsent self_c.conns number j _ rfl
      · by_cases h2 : data.head? = some PACKET_ID_SELF_FRIENDNAME
        · rw [handle_packet_friendname_eq self_c number data now hact h2] at h
          rw [← h]
          exact ⟨fun hne => absurd rfl hne, fun hne => absurd rfl hne⟩
        · rw [handle_packet_other self_c number data now hact hdata h1 h2] at h
          rw [← h]
          exact ⟨fun hne => absurd rfl hne, fun hne => absurd rfl hne⟩
  | lossy_packet number data =>
    simp only [step, Option.some.injEq] at h
    rw [handle_lossy_packet_eq] at h
    rw [← h]
    exact ⟨fun hne => absurd rfl hne, fun hne => absurd rfl hne⟩
  | tick now write_ret =>
    simp only [step, Option.some.injEq] at h
    rw [← h]
    by_cases hj : j < SELF_CONN_MAX
    · rw [do_self_connections_getD self_c now write_ret j hj, tick_slot_eq]
      constructor
      · intro hne; exact absurd rfl hne
      · intro hne
        refine ⟨now, write_ret, rfl, ?_⟩
        by_cases hc : (self_c.conns.getD j default).status ≠ 0 ∧
            ((self_c.conns.getD j default).ping_lastsent + SELF_PING_INTERVAL) % UINT64_MOD
              < now ∧ write_ret j ≠ -1
        · refine ⟨hc.2.2, ?_⟩
          show (if _ then now else _) = now
          rw [if_pos hc]
        · exfalso
          apply hne
          show (if _ then now else _) = _
          rw [if_neg hc]
    · rw [(do_self_connections_spec self_c now write_ret).2.2.2.2.1 j, if_neg hj]
      exact ⟨fun hne => absurd rfl hne, fun hne => absurd rfl hne⟩
  | sync_friend friend_id packet_id data =>
    simp only [step, Option.some.injEq] at h
    rw [← h]
    exact ⟨fun hne => absurd rfl hne, fun hne => absurd rfl hne⟩

theorem tick_calls_single (self_c : Self_Connections) (now : Nat) (write_ret : Nat → Int)
    (h : ∀ j, 0 < j → (self_c.conns.getD j default).status = 0) :
    ∀ k, tick_calls self_c now write_ret (k + 1) =
      if (self_c.conns.getD 0 default).status = 0 then []
      else (do_self_connections_conn now (write_ret 0) (self_c.conns.getD 0 default)).2 := by
  intro k
  induction k with
  | zero =>
    unfold tick_calls
    rw [show List.range (0 + 1) = [0] from rfl, List.map_cons, List.map_nil,
      List.flatten_cons, List.flatten_nil, List.append_nil]
  | succ k ih =>
    have hstep : tick_calls self_c now write_ret (k + 1 + 1)
        = tick_calls self_c now write_ret (k + 1) ++
          (if (self_c.conns.getD (k + 1) default).status = 0 then []
            else (do_self_connections_conn now (write_ret (k + 1))
              (self_c.conns.getD (k + 1) default)).2) := by
      unfold tick_calls
      rw [List.range_succ, List.map_append, List.flatten_append]
      simp
    rw [hstep, ih, if_pos (h (k + 1) (Nat.succ_pos k)), List.append_nil]

/-! ## The claims -/

/-- C2: a request whose claimed public key differs from the local key in one of its 32
bytes is refused: `handle_new_connections` returns -1, the table is as before, and no call
leaves the module (no accept, no handler registration); and a return of 0 happens only for
a key that agrees with the local key in each of the 32 bytes. -/
theorem handle_new_connections_identity_gate (self_c : Self_Connections)
    (n_c : New_Connection) (id : Int) :
    ((∃ i, i < crypto_box_PUBLICKEYBYTES ∧
        n_c.public_key.getD i 0 ≠ self_c.net_crypto.self_public_key.getD i 0) →
      handle_new_connections self_c n_c id = some (-1, self_c, [])) ∧
    (∀ s1 calls, handle_new_connections self_c n_c id = some (0, s1, calls) →
      ∀ i, i < crypto_box_PUBLICKEYBYTES →
        n_c.public_key.getD i 0 = self_c.net_crypto.self_public_key.getD i 0) := by
  constructor
  · rintro ⟨i, hi, hne⟩
    have hcmp : memcmp self_c.net_crypto.self_public_key n_c.public_key
        crypto_box_PUBLICKEYBYTES ≠ 0 := by
      intro h0
      exact hne ((memcmp_eq_zero_iff _ _ _).1 h0 i hi).symm
    unfold handle_new_connections
    rw [if_neg hcmp]
  · intro s1 calls hres i hi
    by_cases hcmp : memcmp self_c.net_crypto.self_public_key n_c.public_key
        crypto_box_PUBLICKEYBYTES = 0
    · exact ((memcmp_eq_zero_iff _ _ _).1 hcmp i hi).symm
    · unfold handle_new_connections at hres
      rw [if_neg hcmp] at hres
      simp at hres

/-- C2, witness: a key that differs in its last byte only is refused; the local key itself
agrees byte for byte. -/
theorem handle_new_connections_identity_gate_witness :
    handle_new_connections mgr_two ⟨key_other⟩ 42 = some (-1, mgr_two, []) ∧
    (∀ i, i < crypto_box_PUBLICKEYBYTES →
      (New_Connection.mk key_local).public_key.getD i 0
        = mgr_two.net_crypto.self_public_key.getD i 0) :=
  ⟨(handle_new_connections_identity_gate mgr_two ⟨key_other⟩ 42).1
      ⟨31, by decide, by decide⟩,
   (handle_new_connections_identity_gate mgr_two ⟨key_local⟩ 42).2 _ _ rfl⟩

/-- C3: on a freshly created manager, sixteen consecutive admissions with the local key
all return 0; after the first `k` of them exactly the slots `0 .. k-1` are occupied, in
request order, each Connecting with the id the transport returned for its request, and
`num_cons` is `k`; a seventeenth admission with the local key returns -1 and leaves the
sixteen slots and `num_cons` as they were. -/
theorem sixteen_admissions_then_full (net_crypto : Net_Crypto) (cb : Self_Callbacks)
    (reqs : List (New_Connection × Int)) (hlen : reqs.length = SELF_CONN_MAX)
    (hkey : ∀ r, r ∈ reqs → same_key r.1.public_key net_crypto.self_public_key) :
    (∀ k, k ≤ SELF_CONN_MAX →
      admit_list (fresh net_crypto cb) (reqs.take k) =
        some (List.replicate k 0,
          { net_crypto := net_crypto
            conns := (reqs.take k).map admitted_slot ++
              List.replicate (SELF_CONN_MAX - k) default
            num_cons := k
            cb := cb })) ∧
    admit_list (fresh net_crypto cb) reqs =
      some (List.replicate SELF_CONN_MAX 0,
        { net_crypto := net_crypto, conns := reqs.map admitted_slot,
          num_cons := SELF_CONN_MAX, cb := cb }) ∧
    (∀ (n_c : New_Connection) (id : Int),
      same_key n_c.public_key net_crypto.self_public_key →
      handle_new_connections
          { net_crypto := net_crypto, conns := reqs.map admitted_slot,
            num_cons := SELF_CONN_MAX, cb := cb } n_c id =
        some (-1,
          { net_crypto := net_crypto, conns := reqs.map admitted_slot,
            num_cons := SELF_CONN_MAX, cb := cb },
          [Call.accept_crypto_connection n_c])) := by
  have hpre : ∀ k, k ≤ SELF_CONN_MAX →
      admit_list (fresh net_crypto cb) (reqs.take k) =
        some (List.replicate k 0,
          { net_crypto := net_crypto
            conns := (reqs.take k).map admitted_slot ++
              List.replicate (SELF_CONN_MAX - k) default
            num_cons := k
            cb := cb }) := by
    intro k hk
    have hl : (reqs.take k).length = k := by
      rw [List.length_take, hlen]; omega
    have := admit_list_from net_crypto cb (reqs.take k) []
      (fun c hc => absurd hc (List.not_mem_nil c))
      (by simp only [List.length_nil, hl]; omega)
      (fun r hr => hkey r (List.mem_of_mem_take hr))
    simp only [List.length_nil, hl, Nat.zero_add, List.nil_append, Nat.sub_zero] at this
    exact this
  refine ⟨hpre, ?_, ?_⟩
  · have h16 := hpre SELF_CONN_MAX (le_refl _)
    have ht : reqs.take SELF_CONN_MAX = reqs := by
      rw [← hlen]; exact List.take_length reqs
    rw [ht] at h16
    rw [h16]
    simp
  · intro n_c id hk
    exact handle_new_connections_full _ n_c id hk rfl

/-- C3, witness: sixteen requests with ids 100 .. 115, then a seventeenth one. -/
theorem sixteen_admissions_then_full_witness :
    admit_list (fresh ⟨key_local⟩ ⟨true⟩) reqs16 =
      some (List.replicate SELF_CONN_MAX 0,
        { net_crypto := ⟨key_local⟩, conns := reqs16.map admitted_slot,
          num_cons := SELF_CONN_MAX, cb := ⟨true⟩ }) ∧
    handle_new_connections
        { net_crypto := ⟨key_local⟩, conns := reqs16.map admitted_slot,
          num_cons := SELF_CONN_MAX, cb := ⟨true⟩ } ⟨key_local⟩ 116 =
      some (-1,
        { net_crypto := ⟨key_local⟩, conns := reqs16.map admitted_slot,
          num_cons := SELF_CONN_MAX, cb := ⟨true⟩ },
        [Call.accept_crypto_connection ⟨key_local⟩]) :=
  ⟨(sixteen_admissions_then_full ⟨key_local⟩ ⟨true⟩ reqs16 rfl
      (fun r hr => by
        obtain ⟨i, _, rfl⟩ := List.mem_map.1 hr
        exact same_key_refl key_local)).2.1,
   (sixteen_admissions_then_full ⟨key_local⟩ ⟨true⟩ reqs16 rfl
      (fun r hr => by
        obtain ⟨i, _, rfl⟩ := List.mem_map.1 hr
        exact same_key_refl key_local)).2.2 ⟨key_local⟩ 116 (same_key_refl key_local)⟩

/-- C4: when `handle_new_connections` returns 0, the lowest-index slot that was free
before the call is the one slot that changed: it is now Connecting and holds the id
returned by the accept call, its other fields are as before, every other slot is
unchanged; and the calls made are the accept followed by exactly three registrations
(status, data, lossy), each with that id and that slot index. -/
theorem handle_new_connections_success (self_c : Self_Connections) (n_c : New_Connection)
    (id : Int) (s1 : Self_Connections) (calls : List Call)
    (hlen : self_c.conns.length = SELF_CONN_MAX)
    (h : handle_new_connections self_c n_c id = some (0, s1, calls)) :
    ∃ i, first_free self_c.conns i ∧
      s1.conns = self_c.conns.set i
        { self_c.conns.getD i default with
          status := SELFCONN_STATUS_CONNECTING, crypt_connection_id := id } ∧
      (s1.conns.getD i default).status = SELFCONN_STATUS_CONNECTING ∧
      (s1.conns.getD i default).crypt_connection_id = id ∧
      s1.conns.getD i default ≠ self_c.conns.getD i default ∧
      (∀ j, j ≠ i → s1.conns.getD j default = self_c.conns.getD j default) ∧
      s1.conns.length = SELF_CONN_MAX ∧
      calls = [Call.accept_crypto_connection n_c, Call.connection_status_handler id i,
        Call.connection_data_handler id i, Call.connection_lossy_data_handler id i] := by
  rcases handle_new_connections_cases self_c n_c id with
    ⟨_, hr⟩ | ⟨_, _, hr⟩ | ⟨_, _, _, hr⟩ | ⟨_, _, i, hi, hr⟩
  · rw [hr] at h; simp at h
  · rw [hr] at h; simp at h
  · rw [hr] at h; simp at h
  · rw [hr] at h
    simp only [Option.some.injEq, Prod.mk.injEq, true_and] at h
    obtain ⟨hs, hc⟩ := h
    have hil : i < self_c.conns.length := by rw [hlen]; exact hi.1
    subst hs
    refine ⟨i, hi, rfl, ?_, ?_, ?_, ?_, ?_, hc.symm⟩
    · show ((self_c.conns.set i _).getD i default).status = _
      rw [getD_set_self _ _ _ hil]
    · show ((self_c.conns.set i _).getD i default).crypt_connection_id = _
      rw [getD_set_self _ _ _ hil]
    · show (self_c.conns.set i _).getD i default ≠ _
      rw [getD_set_self _ _ _ hil]
      intro hcontra
      have := congrArg Self_Conn.status hcontra
      rw [hi.2.1] at this
      exact absurd this (show SELFCONN_STATUS_CONNECTING ≠ 0 by decide)
    · intro j hj
      exact getD_set_ne _ _ _ _ hj
    · show (self_c.conns.set i _).length = _
      rw [List.length_set]; exact hlen

/-- C4, witness: an admission into `mgr_two` takes slot 2. -/
theorem handle_new_connections_success_witness :
    ∃ i, first_free mgr_two.conns i ∧
      (mgr_three.conns.getD i default).status = SELFCONN_STATUS_CONNECTING ∧
      (mgr_three.conns.getD i default).crypt_connection_id = 42 ∧
      (∀ j, j ≠ i → mgr_three.conns.getD j default = mgr_two.conns.getD j default) :=
  match handle_new_connections_success mgr_two ⟨key_local⟩ 42 mgr_three
      [Call.accept_crypto_connection ⟨key_local⟩, Call.connection_status_handler 42 2,
        Call.connection_data_handler 42 2, Call.connection_lossy_data_handler 42 2]
      rfl (by decide) with
  | ⟨i, h1, _, h3, h4, _, h6, _⟩ => ⟨i, h1, h3, h4, h6⟩

/-- C6: the status handler on slot `number` at time `now`.  On a free slot it returns -1
and changes nothing.  On an active slot it returns 0; an online report makes the slot
Connected and sets its `ping_lastrecv` to `now`; an offline report makes the slot free.  In
every case no call leaves the module (no close, no send), no other slot is modified, and
`num_cons` is as before. -/
theorem handle_status_state_machine (self_c : Self_Connections) (number status now : Nat)
    (hlen : self_c.conns.length = SELF_CONN_MAX) (hn : number < SELF_CONN_MAX) :
    ((self_c.conns.getD number default).status = SELFCONN_STATUS_NONE →
      handle_status self_c number status now = (-1, self_c, [])) ∧
    ((self_c.conns.getD number default).status ≠ SELFCONN_STATUS_NONE → status ≠ 0 →
      (handle_status self_c number status now).1 = 0 ∧
      ((handle_status self_c number status now).2.1.conns.getD number default).status
        = SELFCONN_STATUS_CONNECTED ∧
      ((handle_status self_c number status now).2.1.conns.getD number default).ping_lastrecv
        = now) ∧
    ((self_c.conns.getD number default).status ≠ SELFCONN_STATUS_NONE → status = 0 →
      (handle_status self_c number status now).1 = 0 ∧
      ((handle_status self_c number status now).2.1.conns.getD number default).status
        = SELFCONN_STATUS_NONE) ∧
    (handle_status self_c number status now).2.2 = [] ∧
    (∀ j, j ≠ number →
      (handle_status self_c number status now).2.1.conns.getD j default
        = self_c.conns.getD j default) ∧
    (handle_status self_c number status now).2.1.conns.length = SELF_CONN_MAX ∧
    (handle_status self_c number status now).2.1.num_cons = self_c.num_cons := by
  have hn2 : number < self_c.conns.length := by omega
  by_cases h : (self_c.conns.getD number default).status = 0
  · rw [handle_status_none self_c number status now h]
    refine ⟨fun _ => rfl, fun h1 => absurd h h1, fun h1 => absurd h h1, rfl, fun _ _ => rfl,
      hlen, rfl⟩
  · by_cases hs : status = 0
    · subst hs
      rw [handle_status_offline self_c number now h]
      refine ⟨fun h1 => absurd h1 h, fun _ h2 => absurd rfl h2, fun _ _ => ⟨rfl, ?_⟩, rfl,
        fun j hj => ?_, ?_, rfl⟩
      · show ((self_c.conns.set number _).getD number default).status = SELFCONN_STATUS_NONE
        rw [getD_set_self _ _ _ hn2]; rfl
      · exact getD_set_ne _ _ _ _ hj
      · show (self_c.conns.set number _).length = SELF_CONN_MAX
        rw [List.length_set]; exact hlen
    · rw [handle_status_online self_c number status now h hs]
      refine ⟨fun h1 => absurd h1 h, fun _ _ => ⟨rfl, ?_, ?_⟩, fun _ h2 => absurd h2 hs, rfl,
        fun j hj => ?_, ?_, rfl⟩
      · show ((self_c.conns.set number _).getD number default).status = _
        rw [getD_set_self _ _ _ hn2]
      · show ((self_c.conns.set number _).getD number default).ping_lastrecv = _
        rw [getD_set_self _ _ _ hn2]
      · exact getD_set_ne _ _ _ _ hj
      · show (self_c.conns.set number _).length = SELF_CONN_MAX
        rw [List.length_set]; exact hlen

/-- C6, witness: slot 1 of `mgr_two` goes online at time 9, slot 0 goes offline, and a
report for the free slot 2 is refused. -/
theorem handle_status_state_machine_witness :
    handle_status mgr_two 2 1 9 = (-1, mgr_two, []) ∧
    ((handle_status mgr_two 1 1 9).1 = 0 ∧
      ((handle_status mgr_two 1 1 9).2.1.conns.getD 1 default).status
        = SELFCONN_STATUS_CONNECTED ∧
      ((handle_status mgr_two 1 1 9).2.1.conns.getD 1 default).ping_lastrecv = 9) ∧
    ((handle_status mgr_two 0 0 9).1 = 0 ∧
      ((handle_status mgr_two 0 0 9).2.1.conns.getD 0 default).status
        = SELFCONN_STATUS_NONE) :=
  ⟨(handle_status_state_machine mgr_two 2 1 9 rfl (by decide)).1 rfl,
   (handle_status_state_machine mgr_two 1 1 9 rfl (by decide)).2.1 (by decide) (by decide),
   (handle_status_state_machine mgr_two 0 0 9 rfl (by decide)).2.2.1 (by decide) rfl⟩

/-- C7: `handle_packet` and `handle_lossy_packet` return -1 exactly when the payload is
empty or the addressed slot is free; a call that returns -1 leaves the table unchanged and
makes no call (no upstream callback); every other call returns 0; and
`handle_lossy_packet` never changes the table nor makes a call. -/
theorem data_handlers_fail_iff (self_c : Self_Connections) (number : Nat) (data : List Nat)
    (now : Nat) :
    ((handle_packet self_c number data now).1 = -1 ↔
      (data.length = 0 ∨ (self_c.conns.getD number default).status = SELFCONN_STATUS_NONE)) ∧
    ((handle_lossy_packet self_c number data).1 = -1 ↔
      (data.length = 0 ∨ (self_c.conns.getD number default).status = SELFCONN_STATUS_NONE)) ∧
    ((handle_packet self_c number data now).1 = -1 →
      (handle_packet self_c number data now).2 = (self_c, [])) ∧
    ((handle_lossy_packet self_c number data).1 = -1 →
      (handle_lossy_packet self_c number data).2 = (self_c, [])) ∧
    ((handle_packet self_c number data now).1 ≠ -1 →
      (handle_packet self_c number data now).1 = 0) ∧
    ((handle_lossy_packet self_c number data).1 ≠ -1 →
      (handle_lossy_packet self_c number data).1 = 0) ∧
    (handle_lossy_packet self_c number data).2 = (self_c, []) := by
  have hp : ((handle_packet self_c number data now).1 = -1 ∧
        (handle_packet self_c number data now).2 = (self_c, []) ∧
        (data.length = 0 ∨ (self_c.conns.getD number default).status = 0)) ∨
      ((handle_packet self_c number data now).1 = 0 ∧
        ¬ (data.length = 0 ∨ (self_c.conns.getD number default).status = 0)) := by
    by_cases h : data.length = 0 ∨ (self_c.conns.getD number default).status = 0
    · left
      rw [handle_packet_fail self_c number data now h]
      exact ⟨rfl, rfl, h⟩
    · right
      refine ⟨?_, h⟩
      have hact : (self_c.conns.getD number default).status ≠ 0 := fun e => h (Or.inr e)
      have hdata : data ≠ [] := by
        intro e; apply h; left; rw [e]; rfl
      by_cases h1 : data.head? = some PACKET_ID_SELF_ALIVE
      · rw [handle_packet_alive self_c number data now hact h1]
      · by_cases h2 : data.head? = some PACKET_ID_SELF_FRIENDNAME
        · rw [handle_packet_friendname_eq self_c number data now hact h2]
        · rw [handle_packet_other self_c number data now hact hdata h1 h2]
  have hl := handle_lossy_packet_eq self_c number data
  unfold SELFCONN_STATUS_NONE
  refine ⟨?_, ?_, ?_, ?_, ?_, ?_, ?_⟩
  · rcases hp with ⟨h1, _, h3⟩ | ⟨h1, h3⟩
    · exact ⟨fun _ => h3, fun _ => h1⟩
    · rw [h1]; exact ⟨fun h => absurd h (by decide), fun h => absurd h h3⟩
  · rw [hl]
    by_cases h : data.length = 0 ∨ (self_c.conns.getD number default).status = 0
    · rw [if_pos h]; exact ⟨fun _ => h, fun _ => rfl⟩
    · rw [if_neg h]
      exact ⟨fun h0 => absurd (show (0 : Int) = -1 from h0) (by decide), fun h0 => absurd h0 h⟩
  · rcases hp with ⟨_, h2, _⟩ | ⟨h1, _⟩
    · exact fun _ => h2
    · rw [h1]; exact fun h => absurd h (by decide)
  · intro _; rw [hl]
  · rcases hp with ⟨h1, _, _⟩ | ⟨h1, _⟩
    · exact fun h => absurd h1 h
    · exact fun _ => h1
  · rw [hl]
    by_cases h : data.length = 0 ∨ (self_c.conns.getD number default).status = 0
    · rw [if_pos h]; exact fun h0 => absurd rfl h0
    · rw [if_neg h]; exact fun _ => rfl
  · rw [hl]

/-- C7, witness: empty payloads, a free slot and accepted packets on `mgr_two`. -/
theorem data_handlers_fail_iff_witness :
    (handle_packet mgr_two 0 [] 9).1 = -1 ∧ (handle_packet mgr_two 2 [32] 9).1 = -1 ∧
    (handle_packet mgr_two 2 [32] 9).2 = (mgr_two, []) ∧
    (handle_lossy_packet mgr_two 5 [1, 2] ).2 = (mgr_two, []) ∧
    (handle_packet mgr_two 0 [32] 9).1 = 0 ∧ (handle_lossy_packet mgr_two 1 [1]).1 = 0 :=
  ⟨(data_handlers_fail_iff mgr_two 0 [] 9).1.2 (Or.inl rfl),
   (data_handlers_fail_iff mgr_two 2 [32] 9).1.2 (Or.inr rfl),
   (data_handlers_fail_iff mgr_two 2 [32] 9).2.2.1
     ((data_handlers_fail_iff mgr_two 2 [32] 9).1.2 (Or.inr rfl)),
   (data_handlers_fail_iff mgr_two 5 [1, 2] 9).2.2.2.1
     ((data_handlers_fail_iff mgr_two 5 [1, 2] 9).2.1.2 (Or.inr rfl)),
   (data_handlers_fail_iff mgr_two 0 [32] 9).2.2.2.2.1 (by decide),
   (data_handlers_fail_iff mgr_two 1 [1] 9).2.2.2.2.2.1 (by decide)⟩

/-- C8: on an active slot, with the name-change callback set, a packet whose first byte is
`PACKET_ID_SELF_FRIENDNAME` (38).  With at least 5 bytes the callback is called exactly
once: its friend identifier is the `int` whose four bytes in memory are the bytes 1..4 of
the packet, its name is the bytes 5..end, its length the total length minus 5.  With fewer
bytes no call is made.  In both cases the handler returns 0 and the table is unchanged. -/
theorem handle_packet_friendname (self_c : Self_Connections) (number : Nat) (data : List Nat)
    (now : Nat) (hact : (self_c.conns.getD number default).status ≠ SELFCONN_STATUS_NONE)
    (hcb : self_c.cb.friend_namechange = true)
    (htag : data.head? = some PACKET_ID_SELF_FRIENDNAME) :
    (5 ≤ data.length →
      handle_packet self_c number data now =
        (0, self_c,
          [Call.friend_namechange
            (memcpy_to_int (data.getD 1 0) (data.getD 2 0) (data.getD 3 0) (data.getD 4 0))
            (data.drop 5) (data.length - 5)]) ∧
      ((∀ b, b ∈ data → b < 256) →
        int_to_bytes
          (memcpy_to_int (data.getD 1 0) (data.getD 2 0) (data.getD 3 0) (data.getD 4 0))
          = (data.drop 1).take 4) ∧
      (data.drop 5).length = data.length - 5) ∧
    (data.length < 5 → handle_packet self_c number data now = (0, self_c, [])) := by
  have heq := handle_packet_friendname_eq self_c number data now hact htag
  constructor
  · intro h5
    refine ⟨?_, ?_, ?_⟩
    · rw [heq, if_neg (by omega), if_pos hcb]
    · intro hb
      match data, h5, hb with
      | _ :: b1 :: b2 :: b3 :: b4 :: rest, _, hb =>
        simp only [List.getD_cons_succ, List.getD_cons_zero, List.drop_succ_cons, List.drop_zero,
          List.take_succ_cons, List.take_zero]
        exact int_to_bytes_memcpy_to_int b1 b2 b3 b4 (hb b1 (by simp)) (hb b2 (by simp))
          (hb b3 (by simp)) (hb b4 (by simp))
    · simp
  · intro h5
    rw [heq, if_pos h5]

/-- C8, witness: friend 42 renamed to the three bytes 66 111 98; and a packet cut short. -/
theorem handle_packet_friendname_witness :
    handle_packet mgr_two 0 [38, 42, 0, 0, 0, 66, 111, 98] 9 =
      (0, mgr_two, [Call.friend_namechange 42 [66, 111, 98] 3]) ∧
    handle_packet mgr_two 0 [38, 42, 0, 0] 9 = (0, mgr_two, []) :=
  ⟨((handle_packet_friendname mgr_two 0 [38, 42, 0, 0, 0, 66, 111, 98] 9
      (by decide) rfl rfl).1 (by decide)).1,
   (handle_packet_friendname mgr_two 0 [38, 42, 0, 0] 9 (by decide) rfl rfl).2 (by decide)⟩

/-- C9: on an active slot and a non-empty payload.  When the first byte is the keepalive tag
(32) the handler returns 0 and the table afterwards is the table before with `ping_lastrecv`
of slot `number` set to `now`, whatever bytes follow the tag.  For every other first byte
the handler returns 0 and the table is unchanged.  So the table afterwards differs from
the table before exactly when the tag is 32 and the stored stamp was not `now` already.
A call is made only when the tag is the name-change tag (38). -/
theorem handle_packet_frame (self_c : Self_Connections) (number : Nat) (data : List Nat)
    (now : Nat) (hlen : self_c.conns.length = SELF_CONN_MAX) (hn : number < SELF_CONN_MAX)
    (hact : (self_c.conns.getD number default).status ≠ SELFCONN_STATUS_NONE)
    (hdata : data ≠ []) :
    (data.head? = some PACKET_ID_SELF_ALIVE →
      handle_packet self_c number data now =
        (0, { self_c with
              conns := self_c.conns.set number
                { self_c.conns.getD number default with ping_lastrecv := now } }, [])) ∧
    (data.head? ≠ some PACKET_ID_SELF_ALIVE →
      (handle_packet self_c number data now).1 = 0 ∧
      (handle_packet self_c number data now).2.1 = self_c) ∧
    ((handle_packet self_c number data now).2.1 ≠ self_c ↔
      (data.head? = some PACKET_ID_SELF_ALIVE ∧
        (self_c.conns.getD number default).ping_lastrecv ≠ now)) ∧
    ((handle_packet self_c number data now).2.2 ≠ [] →
      data.head? = some PACKET_ID_SELF_FRIENDNAME) := by
  have hn2 : number < self_c.conns.length := by omega
  by_cases h1 : data.head? = some PACKET_ID_SELF_ALIVE
  · have heq := handle_packet_alive self_c number data now hact h1
    refine ⟨fun _ => heq, fun h => absurd h1 h, ?_, ?_⟩
    · rw [heq]
      constructor
      · intro hne
        refine ⟨h1, fun hnow => hne ?_⟩
        show ({ self_c with conns := _ } : Self_Connections) = self_c
        have : ({ self_c.conns.getD number default with ping_lastrecv := now } : Self_Conn)
            = self_c.conns.getD number default := by rw [← hnow]
        rw [this]
        rw [set_getD_self]
      · rintro ⟨_, hnow⟩ heq2
        apply hnow
        have hc : (self_c.conns.set number
            { self_c.conns.getD number default with ping_lastrecv := now }).getD number default
            = self_c.conns.getD number default := by
          have := congrArg (fun s : Self_Connections => s.conns.getD number default) heq2
          exact this
        rw [getD_set_self _ _ _ hn2] at hc
        rw [← hc]
    · rw [heq]; intro h; exact absurd rfl h
  · have hst : (handle_packet self_c number data now).1 = 0 ∧
        (handle_packet self_c number data now).2.1 = self_c ∧
        ((handle_packet self_c number data now).2.2 ≠ [] →
          data.head? = some PACKET_ID_SELF_FRIENDNAME) := by
      by_cases h2 : data.head? = some PACKET_ID_SELF_FRIENDNAME
      · rw [handle_packet_friendname_eq self_c number data now hact h2]
        exact ⟨rfl, rfl, fun _ => h2⟩
      · rw [handle_packet_other self_c number data now hact hdata h1 h2]
        exact ⟨rfl, rfl, fun h => absurd rfl h⟩
    refine ⟨fun h => absurd h h1, fun _ => ⟨hst.1, hst.2.1⟩, ?_, hst.2.2⟩
    constructor
    · intro hne; exact absurd hst.2.1 hne
    · rintro ⟨h, _⟩; exact absurd h h1

/-- C9, witness: a keepalive, a placeholder tag and a name change on `mgr_two`. -/
theorem handle_packet_frame_witness :
    handle_packet mgr_two 1 [32, 1, 2] 9 =
      (0, { mgr_two with conns := mgr_two.conns.set 1 ⟨1, 41, 9, 0, 0⟩ }, []) ∧
    (handle_packet mgr_two 1 [33] 9).1 = 0 ∧ (handle_packet mgr_two 1 [33] 9).2.1 = mgr_two ∧
    (handle_packet mgr_two 1 [32] 9).2.1 ≠ mgr_two ∧
    (handle_packet mgr_two 0 [38, 42, 0, 0, 0, 66] 9).2.2 ≠ [] ∧
    ([38, 42, 0, 0, 0, 66] : List Nat).head? = some PACKET_ID_SELF_FRIENDNAME :=
  ⟨(handle_packet_frame mgr_two 1 [32, 1, 2] 9 rfl (by decide) (by decide) (by decide)).1 rfl,
   ((handle_packet_frame mgr_two 1 [33] 9 rfl (by decide) (by decide) (by decide)).2.1
      (by decide)).1,
   ((handle_packet_frame mgr_two 1 [33] 9 rfl (by decide) (by decide) (by decide)).2.1
      (by decide)).2,
   (handle_packet_frame mgr_two 1 [32] 9 rfl (by decide) (by decide) (by decide)).2.2.1.2
      ⟨rfl, by decide⟩,
   by decide,
   (handle_packet_frame mgr_two 0 [38, 42, 0, 0, 0, 66] 9 rfl (by decide) (by decide)
      (by decide)).2.2.2 (by decide)⟩

/-- C10, counterexample: slot 0 of `mgr_two` is Connected with `ping_lastsent = 0`; at the
tick of time 7 the interval has elapsed (`7 - 0 ≥ SELF_PING_INTERVAL`) and no call at all
is made. -/
theorem no_keepalive_at_interval :
    (mgr_two.conns.getD 0 default).status = SELFCONN_STATUS_CONNECTED ∧
    7 - (mgr_two.conns.getD 0 default).ping_lastsent ≥ SELF_PING_INTERVAL ∧
    (do_self_connections mgr_two 7 (fun _ => 1)).2 = [] :=
  ⟨rfl, by decide, by decide⟩

/-- C10, as amended: the keepalive sends of a tick are, in slot order, one
`write_cryptpacket` of the single byte 32 to the connection of each slot that is active
and has `ping_lastsent + SELF_PING_INTERVAL < now` in 64-bit unsigned arithmetic, and
nothing else; without wrap-around the test reads `now - ping_lastsent > SELF_PING_INTERVAL`:
strictly more than the interval. -/
theorem keepalive_sends (self_c : Self_Connections) (now : Nat) (write_ret : Nat → Int) :
    (do_self_connections self_c now write_ret).2.filter Call.is_write =
      ((List.range SELF_CONN_MAX).filter (fun j =>
        decide ((self_c.conns.getD j default).status ≠ SELFCONN_STATUS_NONE ∧
          ((self_c.conns.getD j default).ping_lastsent + SELF_PING_INTERVAL) % UINT64_MOD
            < now))).map
        (fun j => Call.write_cryptpacket (self_c.conns.getD j default).crypt_connection_id
          [PACKET_ID_SELF_ALIVE]) ∧
    (∀ j, (self_c.conns.getD j default).ping_lastsent + SELF_PING_INTERVAL < UINT64_MOD →
      (((self_c.conns.getD j default).ping_lastsent + SELF_PING_INTERVAL) % UINT64_MOD < now
        ↔ now - (self_c.conns.getD j default).ping_lastsent > SELF_PING_INTERVAL)) := by
  constructor
  · rw [(do_self_connections_spec self_c now write_ret).2.2.2.2.2]
    unfold tick_calls
    apply flatten_map_filter
    intro j
    unfold SELFCONN_STATUS_NONE
    by_cases hs : (self_c.conns.getD j default).status = 0
    · have hc : ¬ ((self_c.conns.getD j default).status ≠ 0 ∧
          ((self_c.conns.getD j default).ping_lastsent + SELF_PING_INTERVAL) % UINT64_MOD
            < now) := fun h => h.1 hs
      rw [if_pos hs, decide_eq_false hc]
      rfl
    · rw [if_neg hs, do_self_connections_conn_calls]
      by_cases hp : ((self_c.conns.getD j default).ping_lastsent + SELF_PING_INTERVAL)
          % UINT64_MOD < now
      · have hc : ((self_c.conns.getD j default).status ≠ 0 ∧
            ((self_c.conns.getD j default).ping_lastsent + SELF_PING_INTERVAL) % UINT64_MOD
              < now) := ⟨hs, hp⟩
        rw [if_pos hp, decide_eq_true hc]
        by_cases ht : ((self_c.conns.getD j default).ping_lastrecv + SELF_CONNECTION_TIMEOUT)
            % UINT64_MOD < now
        · rw [if_pos ht]; rfl
        · rw [if_neg ht]; rfl
      · have hc : ¬ ((self_c.conns.getD j default).status ≠ 0 ∧
            ((self_c.conns.getD j default).ping_lastsent + SELF_PING_INTERVAL) % UINT64_MOD
              < now) := fun h => hp h.2
        rw [if_neg hp, decide_eq_false hc]
        by_cases ht : ((self_c.conns.getD j default).ping_lastrecv + SELF_CONNECTION_TIMEOUT)
            % UINT64_MOD < now
        · rw [if_pos ht]; rfl
        · rw [if_neg ht]; rfl
  · intro j hj
    rw [Nat.mod_eq_of_lt hj]
    omega

/-- C10, witness: the tick of time 8 on `mgr_two` pings both active slots. -/
theorem keepalive_sends_witness :
    (do_self_connections mgr_two 8 (fun _ => 1)).2.filter Call.is_write =
      [Call.write_cryptpacket 40 [32], Call.write_cryptpacket 41 [32]] ∧
    (((mgr_two.conns.getD 0 default).ping_lastsent + SELF_PING_INTERVAL) % UINT64_MOD < 8
      ↔ 8 - (mgr_two.conns.getD 0 default).ping_lastsent > SELF_PING_INTERVAL) :=
  ⟨(keepalive_sends mgr_two 8 (fun _ => 1)).1.trans (by decide),
   (keepalive_sends mgr_two 8 (fun _ => 1)).2 0 (by decide)⟩

set_option maxRecDepth 20000 in
/-- C11, counterexample: slot 0 of `mgr_stale` is Connected; at the tick of time 22 a
keepalive send is attempted and fails, `ping_lastsent` is unchanged, and the same tick
releases the slot by timeout; the following tick, at time 22 or at time 30, makes no call
at all: the send is not attempted again. -/
theorem failed_ping_not_retried_after_timeout :
    (mgr_stale.conns.getD 0 default).status = SELFCONN_STATUS_CONNECTED ∧
    (do_self_connections mgr_stale 22 (fun _ => -1)).2
      = [Call.write_cryptpacket 40 [32], Call.crypto_kill 40] ∧
    ((do_self_connections mgr_stale 22 (fun _ => -1)).1.conns.getD 0 default).ping_lastsent
      = (mgr_stale.conns.getD 0 default).ping_lastsent ∧
    (do_self_connections (do_self_connections mgr_stale 22 (fun _ => -1)).1 22
      (fun _ => 1)).2 = [] ∧
    (do_self_connections (do_self_connections mgr_stale 22 (fun _ => -1)).1 30
      (fun _ => 1)).2 = [] :=
  ⟨rfl, by decide, by decide, by decide, by decide⟩

/-- C11, as amended: for a tick at time `now` and a slot `j` for which a keepalive send is
attempted (the slot is active and `ping_lastsent + SELF_PING_INTERVAL < now`): when the
send succeeds `ping_lastsent` becomes `now`; when it fails (returns -1) `ping_lastsent` is
unchanged and, provided the slot was not released by the timeout check of the same tick,
a following tick at the same or a later time attempts the send again; and a tick does
not change `ping_lastsent` of a slot for which no send was attempted. -/
theorem keepalive_lastsent (self_c : Self_Connections) (now : Nat) (write_ret : Nat → Int)
    (j : Nat) (hj : j < SELF_CONN_MAX) :
    (((self_c.conns.getD j default).status ≠ SELFCONN_STATUS_NONE ∧
        ((self_c.conns.getD j default).ping_lastsent + SELF_PING_INTERVAL) % UINT64_MOD
          < now) →
      (write_ret j ≠ -1 →
        ((do_self_connections self_c now write_ret).1.conns.getD j default).ping_lastsent
          = now) ∧
      (write_ret j = -1 →
        ((do_self_connections self_c now write_ret).1.conns.getD j default).ping_lastsent
          = (self_c.conns.getD j default).ping_lastsent ∧
        (¬ ((self_c.conns.getD j default).ping_lastrecv + SELF_CONNECTION_TIMEOUT)
            % UINT64_MOD < now →
          ∀ (now2 : Nat) (write_ret2 : Nat → Int), now ≤ now2 →
            Call.write_cryptpacket (self_c.conns.getD j default).crypt_connection_id
                [PACKET_ID_SELF_ALIVE]
              ∈ (do_self_connections (do_self_connections self_c now write_ret).1 now2
                  write_ret2).2))) ∧
    (¬ ((self_c.conns.getD j default).status ≠ SELFCONN_STATUS_NONE ∧
        ((self_c.conns.getD j default).ping_lastsent + SELF_PING_INTERVAL) % UINT64_MOD
          < now) →
      ((do_self_connections self_c now write_ret).1.conns.getD j default).ping_lastsent
        = (self_c.conns.getD j default).ping_lastsent) := by
  unfold SELFCONN_STATUS_NONE
  have hslot := do_self_connections_getD self_c now write_ret j hj
  rw [tick_slot_eq] at hslot
  constructor
  · rintro ⟨hs, hp⟩
    constructor
    · intro hr
      rw [hslot]
      show (if _ then now else _) = now
      rw [if_pos ⟨hs, hp, hr⟩]
    · intro hr
      have hsent : ((do_self_connections self_c now write_ret).1.conns.getD j
          default).ping_lastsent = (self_c.conns.getD j default).ping_lastsent := by
        rw [hslot]
        show (if _ then now else _) = _
        rw [if_neg (fun h => h.2.2 hr)]
      refine ⟨hsent, ?_⟩
      intro ht now2 write_ret2 hle
      have hst : ((do_self_connections self_c now write_ret).1.conns.getD j
          default).status = (self_c.conns.getD j default).status := by
        rw [hslot]
        show (if _ then 0 else _) = _
        rw [if_neg (fun h => ht h.2)]
      have hid : ((do_self_connections self_c now write_ret).1.conns.getD j
          default).crypt_connection_id = (self_c.conns.getD j default).crypt_connection_id := by
        rw [hslot]
      have hmem : Call.write_cryptpacket (self_c.conns.getD j default).crypt_connection_id
          [PACKET_ID_SELF_ALIVE] ∈
          (do_self_connections (do_self_connections self_c now write_ret).1 now2
            write_ret2).2.filter Call.is_write := by
        rw [do_self_connections_writes]
        refine List.mem_map.2 ⟨j, ?_, by rw [hid]⟩
        refine List.mem_filter.2 ⟨List.mem_range.2 hj, ?_⟩
        rw [decide_eq_true_eq, hst, hsent]
        exact ⟨hs, lt_of_lt_of_le hp hle⟩
      exact List.mem_of_mem_filter hmem
  · intro hn
    rw [hslot]
    show (if _ then now else _) = _
    rw [if_neg (fun h => hn ⟨h.1, h.2.1⟩)]

/-- C11, witness: ticks on `mgr_two` at time 8 (send succeeds, send fails and is retried)
and at time 7 (no send). -/
theorem keepalive_lastsent_witness :
    ((do_self_connections mgr_two 8 (fun _ => 1)).1.conns.getD 0 default).ping_lastsent = 8 ∧
    (((do_self_connections mgr_two 8 (fun _ => -1)).1.conns.getD 0 default).ping_lastsent
        = (mgr_two.conns.getD 0 default).ping_lastsent ∧
      Call.write_cryptpacket (mgr_two.conns.getD 0 default).crypt_connection_id
          [PACKET_ID_SELF_ALIVE]
        ∈ (do_self_connections (do_self_connections mgr_two 8 (fun _ => -1)).1 8
            (fun _ => 1)).2) ∧
    ((do_self_connections mgr_two 7 (fun _ => 1)).1.conns.getD 0 default).ping_lastsent
      = (mgr_two.conns.getD 0 default).ping_lastsent :=
  ⟨((keepalive_lastsent mgr_two 8 (fun _ => 1) 0 (by decide)).1
      ⟨by decide, by decide⟩).1 (by decide),
   ⟨(((keepalive_lastsent mgr_two 8 (fun _ => -1) 0 (by decide)).1
      ⟨by decide, by decide⟩).2 rfl).1,
    (((keepalive_lastsent mgr_two 8 (fun _ => -1) 0 (by decide)).1
      ⟨by decide, by decide⟩).2 rfl).2 (by decide) 8 (fun _ => 1) (le_refl 8)⟩,
   (keepalive_lastsent mgr_two 7 (fun _ => 1) 0 (by decide)).2 (by decide)⟩

/-- C12, counterexample: slot 1 of `mgr_two` is Connecting with `ping_lastrecv = 0`; at the
tick of time 21 the timeout has elapsed (`21 - 0 ≥ SELF_CONNECTION_TIMEOUT`), yet the slot
keeps its status and no close is issued. -/
theorem no_kill_at_timeout :
    (mgr_two.conns.getD 1 default).status = SELFCONN_STATUS_CONNECTING ∧
    21 - (mgr_two.conns.getD 1 default).ping_lastrecv ≥ SELF_CONNECTION_TIMEOUT ∧
    ((do_self_connections mgr_two 21 (fun _ => 1)).1.conns.getD 1 default).status
      = SELFCONN_STATUS_CONNECTING ∧
    (do_self_connections mgr_two 21 (fun _ => 1)).2.filter Call.is_kill = [] :=
  ⟨rfl, by decide, by decide, by decide⟩

/-- C12, as amended: the closes of a tick are, in slot order, one `crypto_kill` with the
connection id of each slot that is active and has
`ping_lastrecv + SELF_CONNECTION_TIMEOUT < now` in 64-bit unsigned arithmetic, and nothing
else; the status of such a slot becomes None, the status of every other slot is unchanged;
neither depends on what the keepalive sends of the tick return; without wrap-around the
test reads `now - ping_lastrecv > SELF_CONNECTION_TIMEOUT`: strictly more than the
timeout. -/
theorem timeout_kills (self_c : Self_Connections) (now : Nat) (write_ret : Nat → Int) :
    (do_self_connections self_c now write_ret).2.filter Call.is_kill =
      ((List.range SELF_CONN_MAX).filter (fun j =>
        decide ((self_c.conns.getD j default).status ≠ SELFCONN_STATUS_NONE ∧
          ((self_c.conns.getD j default).ping_lastrecv + SELF_CONNECTION_TIMEOUT) % UINT64_MOD
            < now))).map
        (fun j => Call.crypto_kill (self_c.conns.getD j default).crypt_connection_id) ∧
    (∀ j, j < SELF_CONN_MAX →
      ((do_self_connections self_c now write_ret).1.conns.getD j default).status =
        if (self_c.conns.getD j default).status ≠ SELFCONN_STATUS_NONE ∧
          ((self_c.conns.getD j default).ping_lastrecv + SELF_CONNECTION_TIMEOUT) % UINT64_MOD
            < now
        then SELFCONN_STATUS_NONE else (self_c.conns.getD j default).status) ∧
    (∀ (write_ret2 : Nat → Int),
      (do_self_connections self_c now write_ret2).2.filter Call.is_kill
        = (do_self_connections self_c now write_ret).2.filter Call.is_kill ∧
      ∀ j, j < SELF_CONN_MAX →
        ((do_self_connections self_c now write_ret2).1.conns.getD j default).status
          = ((do_self_connections self_c now write_ret).1.conns.getD j default).status) ∧
    (∀ j, (self_c.conns.getD j default).ping_lastrecv + SELF_CONNECTION_TIMEOUT < UINT64_MOD →
      (((self_c.conns.getD j default).ping_lastrecv + SELF_CONNECTION_TIMEOUT) % UINT64_MOD
          < now
        ↔ now - (self_c.conns.getD j default).ping_lastrecv > SELF_CONNECTION_TIMEOUT)) := by
  have hst : ∀ (wr : Nat → Int) (j : Nat), j < SELF_CONN_MAX →
      ((do_self_connections self_c now wr).1.conns.getD j default).status =
        if (self_c.conns.getD j default).status ≠ 0 ∧
          ((self_c.conns.getD j default).ping_lastrecv + SELF_CONNECTION_TIMEOUT) % UINT64_MOD
            < now
        then 0 else (self_c.conns.getD j default).status := by
    intro wr j hj
    rw [do_self_connections_getD self_c now wr j hj, tick_slot_status]
  unfold SELFCONN_STATUS_NONE
  refine ⟨do_self_connections_kills self_c now write_ret, hst write_ret, ?_, ?_⟩
  · intro write_ret2
    refine ⟨?_, fun j hj => ?_⟩
    · rw [do_self_connections_kills, do_self_connections_kills]
    · rw [hst write_ret2 j hj, hst write_ret j hj]
  · intro j hj
    rw [Nat.mod_eq_of_lt hj]
    omega

/-- C12, witness: the tick of time 22 on `mgr_two` closes connection 41 and frees slot 1. -/
theorem timeout_kills_witness :
    (do_self_connections mgr_two 22 (fun _ => 1)).2.filter Call.is_kill
      = [Call.crypto_kill 41] ∧
    ((do_self_connections mgr_two 22 (fun _ => 1)).1.conns.getD 1 default).status
      = SELFCONN_STATUS_NONE ∧
    (((mgr_two.conns.getD 1 default).ping_lastrecv + SELF_CONNECTION_TIMEOUT) % UINT64_MOD
        < 22
      ↔ 22 - (mgr_two.conns.getD 1 default).ping_lastrecv > SELF_CONNECTION_TIMEOUT) :=
  ⟨(timeout_kills mgr_two 22 (fun _ => 1)).1.trans (by decide),
   ((timeout_kills mgr_two 22 (fun _ => 1)).2.1 1 (by decide)).trans (by decide),
   (timeout_kills mgr_two 22 (fun _ => 1)).2.2.2 1 (by decide)⟩

/-- C13: a slot `j` that is Connected with `ping_lastrecv = t0`, whose connection id is held
by no other active slot, under any sequence of consecutive ticks (of any times, so of
non-decreasing times too).  The close primitive is called for its connection id at most
once over the whole sequence.  If some tick of the sequence finds the slot timed out, the
slot is free at the end and the close was called exactly once; if none does, the slot is
still Connected and no close was called.  Once the slot is free after an initial part of
the sequence it is free after the whole sequence.  With `t0 = 0`, the single tick of time
22 frees the slot and calls the close exactly once. -/
theorem timeout_closes_once (self_c : Self_Connections) (j t0 : Nat)
    (ticks : List (Nat × (Nat → Int))) (hj : j < SELF_CONN_MAX)
    (hconn : (self_c.conns.getD j default).status = SELFCONN_STATUS_CONNECTED)
    (hrecv : (self_c.conns.getD j default).ping_lastrecv = t0)
    (hu : id_unique self_c.conns j (self_c.conns.getD j default).crypt_connection_id) :
    (run_ticks self_c ticks).2.count
        (Call.crypto_kill (self_c.conns.getD j default).crypt_connection_id) ≤ 1 ∧
    ((∃ t, t ∈ ticks ∧ (t0 + SELF_CONNECTION_TIMEOUT) % UINT64_MOD < t.1) →
      ((run_ticks self_c ticks).1.conns.getD j default).status = SELFCONN_STATUS_NONE ∧
      (run_ticks self_c ticks).2.count
        (Call.crypto_kill (self_c.conns.getD j default).crypt_connection_id) = 1) ∧
    ((∀ t, t ∈ ticks → ¬ (t0 + SELF_CONNECTION_TIMEOUT) % UINT64_MOD < t.1) →
      ((run_ticks self_c ticks).1.conns.getD j default).status = SELFCONN_STATUS_CONNECTED ∧
      (run_ticks self_c ticks).2.count
        (Call.crypto_kill (self_c.conns.getD j default).crypt_connection_id) = 0) ∧
    (∀ (earlier later : List (Nat × (Nat → Int))), ticks = earlier ++ later →
      ((run_ticks self_c earlier).1.conns.getD j default).status = SELFCONN_STATUS_NONE →
      ((run_ticks self_c ticks).1.conns.getD j default).status = SELFCONN_STATUS_NONE) ∧
    (t0 = 0 → ∀ (write_ret : Nat → Int),
      ((run_ticks self_c [(22, write_ret)]).1.conns.getD j default).status
        = SELFCONN_STATUS_NONE ∧
      (run_ticks self_c [(22, write_ret)]).2.count
        (Call.crypto_kill (self_c.conns.getD j default).crypt_connection_id) = 1) := by
  have hs : (self_c.conns.getD j default).status ≠ 0 := by
    rw [hconn]; decide
  have hall := fun (l : List (Nat × (Nat → Int))) =>
    run_ticks_slot j hj (self_c.conns.getD j default).crypt_connection_id t0 l self_c hu rfl hrecv
  unfold SELFCONN_STATUS_NONE
  refine ⟨?_, ?_, ?_, ?_, ?_⟩
  · by_cases hd : ∃ t, t ∈ ticks ∧ (t0 + SELF_CONNECTION_TIMEOUT) % UINT64_MOD < t.1
    · rw [((hall ticks).1 ⟨hs, hd⟩).2]
    · rw [((hall ticks).2 (fun h => hd h.2)).2]; exact Nat.zero_le _
  · intro hd
    exact (hall ticks).1 ⟨hs, hd⟩
  · intro hd
    have := (hall ticks).2 (by
      rintro ⟨_, t, ht, hlt⟩
      exact hd t ht hlt)
    rw [hconn] at this
    exact this
  · intro earlier later hsplit hnone
    have hde : ∃ t, t ∈ earlier ∧ (t0 + SELF_CONNECTION_TIMEOUT) % UINT64_MOD < t.1 := by
      by_contra hn
      have := ((hall earlier).2 (fun h => hn h.2)).1
      rw [hnone] at this
      exact hs this.symm
    obtain ⟨t, ht, hlt⟩ := hde
    exact ((hall ticks).1 ⟨hs, t, by rw [hsplit]; exact List.mem_append_left _ ht, hlt⟩).1
  · intro h0 write_ret
    exact (hall [(22, write_ret)]).1 ⟨hs, (22, write_ret), List.mem_singleton.2 rfl, by
      rw [h0]
      show (0 + SELF_CONNECTION_TIMEOUT) % UINT64_MOD < 22
      decide⟩

/-- C13, witness: ticks at times 10, 22 and 30 on `mgr_stale`. -/
theorem timeout_closes_once_witness :
    ((run_ticks mgr_stale [(10, fun _ => 1), (22, fun _ => -1), (30, fun _ => 1)]).1.conns.getD
        0 default).status = SELFCONN_STATUS_NONE ∧
    (run_ticks mgr_stale [(10, fun _ => 1), (22, fun _ => -1), (30, fun _ => 1)]).2.count
        (Call.crypto_kill (mgr_stale.conns.getD 0 default).crypt_connection_id) = 1 :=
  (timeout_closes_once mgr_stale 0 0 [(10, fun _ => 1), (22, fun _ => -1), (30, fun _ => 1)]
    (by decide) rfl rfl (by unfold id_unique; decide)).2.1
    ⟨(22, fun _ => -1), by simp, by decide⟩

/-- C14: `self_connections_sync_friend` sends, in slot order, one `write_cryptpacket` per
active slot, addressed to the connection id of that slot, each with the same frame: the
tag, then the four bytes of the friend identifier (little-endian, two's complement), then
the payload, `5 + n` bytes in all; nothing is sent for a free slot; the table is left as
it is.  With no active slot nothing is sent.  For tag 38, friend 42 and payload
`66 111 98` ("Bob") the frame is `38 42 0 0 0 66 111 98`. -/
theorem sync_friend_sends (self_c : Self_Connections) (friend_id : Int) (packet_id : Nat)
    (data : List Nat) :
    self_connections_sync_friend self_c friend_id packet_id data =
      ((List.range SELF_CONN_MAX).filter (fun j =>
        decide ((self_c.conns.getD j default).status ≠ SELFCONN_STATUS_NONE))).map
        (fun j => Call.write_cryptpacket (self_c.conns.getD j default).crypt_connection_id
          ([packet_id] ++ int_to_bytes friend_id ++ data)) ∧
    ([packet_id] ++ int_to_bytes friend_id ++ data).length = 5 + data.length ∧
    (∃ b0 b1 b2 b3 : Nat, int_to_bytes friend_id = [b0, b1, b2, b3] ∧
      b0 < 256 ∧ b1 < 256 ∧ b2 < 256 ∧ b3 < 256 ∧
      ((b0 + 256 * b1 + 65536 * b2 + 16777216 * b3 : Nat) : Int) = friend_id % 2 ^ 32) ∧
    step self_c (Event.sync_friend friend_id packet_id data) = some self_c ∧
    ((∀ j, j < SELF_CONN_MAX → (self_c.conns.getD j default).status = SELFCONN_STATUS_NONE) →
      self_connections_sync_friend self_c friend_id packet_id data = []) ∧
    [PACKET_ID_SELF_FRIENDNAME] ++ int_to_bytes 42 ++ [66, 111, 98]
      = [38, 42, 0, 0, 0, 66, 111, 98] := by
  have hmain : self_connections_sync_friend self_c friend_id packet_id data =
      ((List.range SELF_CONN_MAX).filter (fun j =>
        decide ((self_c.conns.getD j default).status ≠ SELFCONN_STATUS_NONE))).map
        (fun j => Call.write_cryptpacket (self_c.conns.getD j default).crypt_connection_id
          ([packet_id] ++ int_to_bytes friend_id ++ data)) := by
    unfold self_connections_sync_friend sync_friend_msg SELFCONN_STATUS_NONE
    simp only []
    rw [foldl_active_calls self_c.conns
      (fun c => Call.write_cryptpacket c.crypt_connection_id
        ([packet_id] ++ int_to_bytes friend_id ++ data))]
    rfl
  refine ⟨hmain, ?_, int_to_bytes_layout friend_id, rfl, ?_, by decide⟩
  · simp [int_to_bytes]; omega
  · intro hnone
    rw [hmain]
    have : (List.range SELF_CONN_MAX).filter (fun j =>
        decide ((self_c.conns.getD j default).status ≠ SELFCONN_STATUS_NONE)) = [] := by
      rw [List.filter_eq_nil_iff]
      intro a ha
      have := hnone a (List.mem_range.1 ha)
      rw [decide_eq_true_eq]
      exact fun h => h this
    rw [this]; rfl

/-- C14, witness: the broadcast of ("Bob", friend 42) on `mgr_two` reaches connections 40
and 41; on a fresh table it sends nothing. -/
theorem sync_friend_sends_witness :
    self_connections_sync_friend mgr_two 42 PACKET_ID_SELF_FRIENDNAME [66, 111, 98] =
      [Call.write_cryptpacket 40 [38, 42, 0, 0, 0, 66, 111, 98],
        Call.write_cryptpacket 41 [38, 42, 0, 0, 0, 66, 111, 98]] ∧
    self_connections_sync_friend mgr_fresh 42 PACKET_ID_SELF_FRIENDNAME [66, 111, 98] = [] :=
  ⟨(sync_friend_sends mgr_two 42 PACKET_ID_SELF_FRIENDNAME [66, 111, 98]).1.trans (by decide),
   (sync_friend_sends mgr_fresh 42 PACKET_ID_SELF_FRIENDNAME [66, 111, 98]).2.2.2.2.1
     (by decide)⟩

/-- C15: `kill_self_connections` calls `crypto_kill` once per active slot, in slot order,
with the connection id of that slot, and not for a free slot; so the number of closes is
the number of active slots.  On a `NULL` argument it does nothing. -/
theorem kill_self_connections_closes (self_c : Self_Connections) :
    kill_self_connections (some self_c) =
      ((List.range SELF_CONN_MAX).filter (fun j =>
        decide ((self_c.conns.getD j default).status ≠ SELFCONN_STATUS_NONE))).map
        (fun j => Call.crypto_kill (self_c.conns.getD j default).crypt_connection_id) ∧
    (kill_self_connections (some self_c)).length = active_count self_c.conns ∧
    kill_self_connections none = [] := by
  have hmain : kill_self_connections (some self_c) =
      ((List.range SELF_CONN_MAX).filter (fun j =>
        decide ((self_c.conns.getD j default).status ≠ SELFCONN_STATUS_NONE))).map
        (fun j => Call.crypto_kill (self_c.conns.getD j default).crypt_connection_id) := by
    unfold kill_self_connections SELFCONN_STATUS_NONE
    simp only []
    rw [foldl_active_calls self_c.conns (fun c => Call.crypto_kill c.crypt_connection_id)]
    rfl
  refine ⟨hmain, ?_, rfl⟩
  rw [hmain, List.length_map]
  unfold active_count SELFCONN_STATUS_NONE
  rw [List.countP_eq_length_filter]

/-- C15, witness: tearing down `mgr_two` closes connections 40 and 41. -/
theorem kill_self_connections_closes_witness :
    kill_self_connections (some mgr_two) = [Call.crypto_kill 40, Call.crypto_kill 41] :=
  (kill_self_connections_closes mgr_two).1.trans (by decide)

/-- C16: over one event of any kind.  `ping_lastrecv` of slot `j` differs afterwards only
when the event is a data packet for slot `j` whose first byte is the keepalive tag, or an
online status report for slot `j`; it is then the time of the event.  `ping_lastsent` of
slot `j` differs afterwards only when the event is a tick whose send to slot `j`
succeeded; it is then the time of the tick.  Spelled out: an admission, an offline status
report, a lossy packet, a packet with another tag and a sync broadcast leave both
timestamps of every slot as they were; a tick never changes `ping_lastrecv`, and what it
does to `ping_lastsent` is decided by the keepalive send alone, not by the timeout
release. -/
theorem timestamps_frame (self_c : Self_Connections) (j : Nat) :
    (∀ (e : Event) (s1 : Self_Connections), step self_c e = some s1 →
      ((s1.conns.getD j default).ping_lastrecv ≠ (self_c.conns.getD j default).ping_lastrecv →
        (∃ data now, e = Event.packet j data now ∧ data.head? = some PACKET_ID_SELF_ALIVE ∧
          (s1.conns.getD j default).ping_lastrecv = now) ∨
        (∃ status now, e = Event.status j status now ∧ status ≠ 0 ∧
          (s1.conns.getD j default).ping_lastrecv = now)) ∧
      ((s1.conns.getD j default).ping_lastsent ≠ (self_c.conns.getD j default).ping_lastsent →
        ∃ now write_ret, e = Event.tick now write_ret ∧ write_ret j ≠ -1 ∧
          (s1.conns.getD j default).ping_lastsent = now)) ∧
    (∀ (n_c : New_Connection) (id r : Int) (s1 : Self_Connections) (calls : List Call),
      handle_new_connections self_c n_c id = some (r, s1, calls) →
      same_stamps s1.conns self_c.conns) ∧
    (∀ (number now : Nat),
      same_stamps (handle_status self_c number 0 now).2.1.conns self_c.conns) ∧
    (∀ (number : Nat) (data : List Nat),
      (handle_lossy_packet self_c number data).2.1 = self_c) ∧
    (∀ (number : Nat) (data : List Nat) (now : Nat),
      data.head? ≠ some PACKET_ID_SELF_ALIVE →
      (handle_packet self_c number data now).2.1 = self_c) ∧
    (∀ (now : Nat) (write_ret : Nat → Int),
      ((do_self_connections self_c now write_ret).1.conns.getD j default).ping_lastrecv
        = (self_c.conns.getD j default).ping_lastrecv ∧
      (j < SELF_CONN_MAX →
        ((do_self_connections self_c now write_ret).1.conns.getD j default).ping_lastsent =
          if (self_c.conns.getD j default).status ≠ SELFCONN_STATUS_NONE ∧
            ((self_c.conns.getD j default).ping_lastsent + SELF_PING_INTERVAL) % UINT64_MOD
              < now ∧ write_ret j ≠ -1
          then now else (self_c.conns.getD j default).ping_lastsent)) ∧
    (∀ (friend_id : Int) (packet_id : Nat) (data : List Nat),
      step self_c (Event.sync_friend friend_id packet_id data) = some self_c) := by
  refine ⟨fun e s1 h => step_stamps self_c s1 e j h,
    fun n_c id r s1 calls h => handle_new_connections_stamps self_c n_c id r s1 calls h,
    ?_, ?_, ?_, ?_, fun _ _ _ => rfl⟩
  · intro number now k
    have h := step_stamps self_c _ (Event.status number 0 now) k rfl
    constructor
    · by_contra hne
      rcases h.1 hne with ⟨_, _, he, _⟩ | ⟨status, _, he, hs, _⟩
      · cases he
      · cases he; exact hs rfl
    · by_contra hne
      obtain ⟨_, _, he, _⟩ := h.2 hne
      cases he
  · intro number data
    rw [handle_lossy_packet_eq]
  · intro number data now hne
    have := (handle_packet_nonalive self_c number data now hne)
    exact this
  · intro now write_ret
    have h := step_stamps self_c _ (Event.tick now write_ret) j rfl
    constructor
    · by_contra hne
      rcases h.1 hne with ⟨_, _, he, _⟩ | ⟨_, _, he, _⟩
      · cases he
      · cases he
    · intro hj
      rw [do_self_connections_getD self_c now write_ret j hj, tick_slot_eq]
      rfl

/-- C16, witness: on `mgr_two`, an offline report for slot 0 keeps its `ping_lastrecv`, and a
packet with tag 33 leaves the table as it is. -/
theorem timestamps_frame_witness :
    ((handle_status mgr_two 0 0 9).2.1.conns.getD 0 default).ping_lastrecv
      = (mgr_two.conns.getD 0 default).ping_lastrecv ∧
    (handle_packet mgr_two 0 [33, 1] 9).2.1 = mgr_two :=
  ⟨((timestamps_frame mgr_two 0).2.2.1 0 9 0).1,
   (timestamps_frame mgr_two 0).2.2.2.2.1 0 [33, 1] 9 (by decide)⟩

/-- C17: in every state reachable from a freshly created manager, `num_cons` is at least
the number of active slots and at most 16, and the array has its 16 entries; so whenever
`num_cons` is not 16 the scan of `new_conn` stops at a free slot of index below 16: it does
not read past the end of the array, `new_conn` and `handle_new_connections` are defined. -/
theorem new_conn_scan_in_bounds (self_c : Self_Connections) (h : Reachable self_c) :
    active_count self_c.conns ≤ self_c.num_cons ∧ self_c.num_cons ≤ SELF_CONN_MAX ∧
    self_c.conns.length = SELF_CONN_MAX ∧
    (self_c.num_cons ≠ SELF_CONN_MAX →
      ∃ i, i < SELF_CONN_MAX ∧ new_conn_scan self_c.conns SELF_CONN_MAX 0 = some i ∧
        (self_c.conns.getD i default).status = SELFCONN_STATUS_NONE ∧
        new_conn self_c ≠ none ∧
        ∀ (n_c : New_Connection) (id : Int), handle_new_connections self_c n_c id ≠ none) := by
  have hok := table_ok_of_reachable self_c h
  refine ⟨hok.2.1, hok.2.2, hok.1, fun hroom => ?_⟩
  obtain ⟨i, hi⟩ := first_free_exists self_c hok hroom
  refine ⟨i, hi.1, new_conn_scan_first_free self_c.conns i hi, hi.2.1, ?_, ?_⟩
  · rw [new_conn_free self_c i hroom hi]; simp
  · intro n_c id hnone
    have := (handle_new_connections_undefined self_c n_c id hnone).2 i hi.1
    exact this hi.2.1

/-- C17, witness: the scan on the reachable table `mgr_released`. -/
theorem new_conn_scan_in_bounds_witness :
    ∃ i, i < SELF_CONN_MAX ∧ new_conn_scan mgr_released.conns SELF_CONN_MAX 0 = some i ∧
        (mgr_released.conns.getD i default).status = SELFCONN_STATUS_NONE ∧
        new_conn mgr_released ≠ none ∧
        ∀ (n_c : New_Connection) (id : Int),
          handle_new_connections mgr_released n_c id ≠ none :=
  (new_conn_scan_in_bounds mgr_released mgr_released_reachable).2.2.2 (by decide)

/-- C19: a successful admission leaves `ping_lastrecv` and `ping_lastsent` of every slot,
the allocated one included, as they were; a tick applies the timeout check to a Connecting
slot: if `ping_lastrecv + SELF_CONNECTION_TIMEOUT < now` the slot becomes free and its
connection is closed; so on a freshly created manager an admission with the local key
succeeds into slot 0 with both timestamps 0, and a tick at any time `now > 21` right after
it sends one keepalive to that connection, closes it and frees the slot. -/
theorem admission_then_timeout :
    (∀ (self_c : Self_Connections) (n_c : New_Connection) (id : Int)
        (s1 : Self_Connections) (calls : List Call),
      handle_new_connections self_c n_c id = some (0, s1, calls) →
      ∀ j, (s1.conns.getD j default).ping_lastrecv
            = (self_c.conns.getD j default).ping_lastrecv ∧
          (s1.conns.getD j default).ping_lastsent
            = (self_c.conns.getD j default).ping_lastsent) ∧
    (∀ (self_c : Self_Connections) (now : Nat) (write_ret : Nat → Int) (j : Nat),
      j < SELF_CONN_MAX →
      (self_c.conns.getD j default).status = SELFCONN_STATUS_CONNECTING →
      ((self_c.conns.getD j default).ping_lastrecv + SELF_CONNECTION_TIMEOUT) % UINT64_MOD
        < now →
      ((do_self_connections self_c now write_ret).1.conns.getD j default).status
        = SELFCONN_STATUS_NONE ∧
      Call.crypto_kill (self_c.conns.getD j default).crypt_connection_id
        ∈ (do_self_connections self_c now write_ret).2) ∧
    (∀ (net_crypto : Net_Crypto) (cb : Self_Callbacks) (n_c : New_Connection) (id : Int)
        (now : Nat) (write_ret : Nat → Int),
      same_key n_c.public_key net_crypto.self_public_key → 21 < now →
      ∃ s1 calls, handle_new_connections (fresh net_crypto cb) n_c id = some (0, s1, calls) ∧
        s1.conns.getD 0 default
          = { status := SELFCONN_STATUS_CONNECTING, crypt_connection_id := id,
              ping_lastrecv := 0, ping_lastsent := 0, lock_count := 0 } ∧
        ((do_self_connections s1 now write_ret).1.conns.getD 0 default).status
          = SELFCONN_STATUS_NONE ∧
        (do_self_connections s1 now write_ret).2
          = [Call.write_cryptpacket id [PACKET_ID_SELF_ALIVE], Call.crypto_kill id]) := by
  refine ⟨?_, ?_, ?_⟩
  · intro self_c n_c id s1 calls h j
    exact handle_new_connections_stamps self_c n_c id 0 s1 calls h j
  · intro self_c now write_ret j hj hs ht
    have hs0 : (self_c.conns.getD j default).status ≠ 0 := by
      rw [hs]; decide
    constructor
    · rw [do_self_connections_getD self_c now write_ret j hj, tick_slot_status,
        if_pos ⟨hs0, ht⟩]
      rfl
    · have hmem : Call.crypto_kill (self_c.conns.getD j default).crypt_connection_id ∈
          (do_self_connections self_c now write_ret).2.filter Call.is_kill := by
        rw [do_self_connections_kills]
        refine List.mem_map.2 ⟨j, List.mem_filter.2 ⟨List.mem_range.2 hj, ?_⟩, rfl⟩
        rw [decide_eq_true_eq]
        exact ⟨hs0, ht⟩
      exact List.mem_of_mem_filter hmem
  · intro net_crypto cb n_c id now write_ret hkey hnow
    have hff : first_free (fresh net_crypto cb).conns 0 := ⟨by decide, rfl, fun l hl => by omega⟩
    have hadm := handle_new_connections_free (fresh net_crypto cb) n_c id 0 hkey
      (show (0 : Nat) ≠ SELF_CONN_MAX by decide) hff
    refine ⟨_, _, hadm, rfl, ?_, ?_⟩
    · rw [do_self_connections_getD _ now write_ret 0 (by decide), tick_slot_status]
      have hc : (SELFCONN_STATUS_CONNECTING ≠ 0 ∧
          (0 + SELF_CONNECTION_TIMEOUT) % UINT64_MOD < now) :=
        ⟨by decide, by
          have : (0 + SELF_CONNECTION_TIMEOUT) % UINT64_MOD = 21 := by decide
          rw [this]; exact hnow⟩
      exact if_pos hc
    · rw [(do_self_connections_spec _ now write_ret).2.2.2.2.2]
      have hrest : ∀ j, 0 < j →
          (((fresh net_crypto cb).conns.set 0
            { (fresh net_crypto cb).conns.getD 0 default with
              status := SELFCONN_STATUS_CONNECTING, crypt_connection_id := id }).getD j
              default).status = 0 := by
        intro j hj0
        rw [getD_set_ne _ _ _ _ (by omega)]
        by_cases hj : j < SELF_CONN_MAX
        · simp only [fresh]
          rw [List.getD_eq_getElem?_getD, List.getElem?_replicate]
          simp [hj]
          rfl
        · rw [getD_default_of_le _ _ (by simp [fresh]; omega)]
          rfl
      have h := tick_calls_single
        { fresh net_crypto cb with
          conns := (fresh net_crypto cb).conns.set 0
            { (fresh net_crypto cb).conns.getD 0 default with
              status := SELFCONN_STATUS_CONNECTING, crypt_connection_id := id }
          num_cons := ((fresh net_crypto cb).num_cons + 1) % UINT32_MOD }
        now write_ret hrest 15
      rw [show SELF_CONN_MAX = 15 + 1 from rfl, h, do_self_connections_conn_calls]
      have h1 : (0 + SELF_PING_INTERVAL) % UINT64_MOD < now := by
        have : (0 + SELF_PING_INTERVAL) % UINT64_MOD = 7 := by decide
        rw [this]; omega
      have h2 : (0 + SELF_CONNECTION_TIMEOUT) % UINT64_MOD < now := by
        have : (0 + SELF_CONNECTION_TIMEOUT) % UINT64_MOD = 21 := by decide
        rw [this]; exact hnow
      have hne : ¬ SELFCONN_STATUS_CONNECTING = 0 := by decide
      exact (if_neg hne).trans (by
        show (if (0 + SELF_PING_INTERVAL) % UINT64_MOD < now then _ else _) ++
          (if (0 + SELF_CONNECTION_TIMEOUT) % UINT64_MOD < now then _ else _) = _
        rw [if_pos h1, if_pos h2]; rfl)

/-- C19, witness: admission with id 40 into a fresh table, then the tick of time 22. -/
theorem admission_then_timeout_witness :
    ∃ s1 calls, handle_new_connections (fresh ⟨key_local⟩ ⟨true⟩) ⟨key_local⟩ 40
        = some (0, s1, calls) ∧
      s1.conns.getD 0 default
        = { status := SELFCONN_STATUS_CONNECTING, crypt_connection_id := 40,
            ping_lastrecv := 0, ping_lastsent := 0, lock_count := 0 } ∧
      ((do_self_connections s1 22 (fun _ => 1)).1.conns.getD 0 default).status
        = SELFCONN_STATUS_NONE ∧
      (do_self_connections s1 22 (fun _ => 1)).2
        = [Call.write_cryptpacket 40 [PACKET_ID_SELF_ALIVE], Call.crypto_kill 40] :=
  admission_then_timeout.2.2 ⟨key_local⟩ ⟨true⟩ ⟨key_local⟩ 40 22 (fun _ => 1)
    (same_key_refl key_local) (by decide)

/-- C20: for a request with the local key, whatever `handle_new_connections` returns, the
first call made is the accept of that request, it is the only accept, and no close is
made.  When `num_cons` is 16 the function returns -1 with the table unchanged and the
accept as its only call: the connection was accepted, no handler is registered, nothing
closes it.  On success the allocated slot holds the id returned by the accept, whatever
its value; the return value is the same as for the id -1, the error value of the
transport. -/
theorem accept_precedes_allocation (self_c : Self_Connections) (n_c : New_Connection)
    (id : Int) (hlen : self_c.conns.length = SELF_CONN_MAX)
    (hkey : same_key n_c.public_key self_c.net_crypto.self_public_key) :
    (∀ r s1 calls, handle_new_connections self_c n_c id = some (r, s1, calls) →
      calls.head? = some (Call.accept_crypto_connection n_c) ∧
      calls.filter Call.is_accept = [Call.accept_crypto_connection n_c] ∧
      calls.filter Call.is_kill = []) ∧
    (self_c.num_cons = SELF_CONN_MAX →
      handle_new_connections self_c n_c id =
        some (-1, self_c, [Call.accept_crypto_connection n_c])) ∧
    (∀ s1 calls, handle_new_connections self_c n_c id = some (0, s1, calls) →
      ∃ i, first_free self_c.conns i ∧
        (s1.conns.getD i default).crypt_connection_id = id) ∧
    (handle_new_connections self_c n_c id).map (fun r => r.1)
      = (handle_new_connections self_c n_c (-1)).map (fun r => r.1) := by
  refine ⟨?_, handle_new_connections_full self_c n_c id hkey, ?_, ?_⟩
  · intro r s1 calls h
    rcases handle_new_connections_cases self_c n_c id with
      ⟨hk, _⟩ | ⟨_, _, hr⟩ | ⟨_, _, _, hr⟩ | ⟨_, _, i, _, hr⟩
    · exact absurd hkey hk
    · rw [hr] at h
      simp only [Option.some.injEq, Prod.mk.injEq] at h
      rw [← h.2.2]
      exact ⟨rfl, rfl, rfl⟩
    · rw [hr] at h; simp at h
    · rw [hr] at h
      simp only [Option.some.injEq, Prod.mk.injEq] at h
      rw [← h.2.2]
      exact ⟨rfl, rfl, rfl⟩
  · intro s1 calls h
    rcases handle_new_connections_cases self_c n_c id with
      ⟨hk, _⟩ | ⟨_, _, hr⟩ | ⟨_, _, _, hr⟩ | ⟨_, _, i, hi, hr⟩
    · exact absurd hkey hk
    · rw [hr] at h; simp at h
    · rw [hr] at h; simp at h
    · rw [hr] at h
      simp only [Option.some.injEq, Prod.mk.injEq, true_and] at h
      refine ⟨i, hi, ?_⟩
      rw [← h.1]
      show ((self_c.conns.set i _).getD i default).crypt_connection_id = id
      rw [getD_set_self _ _ _ (by rw [hlen]; exact hi.1)]
  · rcases handle_new_connections_cases self_c n_c id with
      ⟨hk, _⟩ | ⟨_, hfull, hr⟩ | ⟨_, hroom, hall, hr⟩ | ⟨_, hroom, i, hi, hr⟩
    · exact absurd hkey hk
    · rw [hr, handle_new_connections_full self_c n_c (-1) hkey hfull]
    · rcases handle_new_connections_cases self_c n_c (-1) with
        ⟨hk, _⟩ | ⟨_, hfull, _⟩ | ⟨_, _, _, hr2⟩ | ⟨_, _, i, hi, _⟩
      · exact absurd hkey hk
      · exact absurd hfull hroom
      · rw [hr, hr2]
      · exact absurd hi.2.1 (hall i hi.1)
    · rw [hr, handle_new_connections_free self_c n_c (-1) i hkey hroom hi]; rfl

/-- C20, witness: the full table `mgr_worn`; and an admission into `mgr_two` with id -1. -/
theorem accept_precedes_allocation_witness :
    handle_new_connections mgr_worn ⟨key_local⟩ 41 =
      some (-1, mgr_worn, [Call.accept_crypto_connection ⟨key_local⟩]) ∧
    (∃ i, first_free mgr_two.conns i ∧
      ((mgr_two.conns.set 2 ⟨1, -1, 0, 0, 0⟩).getD i default).crypt_connection_id = -1) :=
  ⟨(accept_precedes_allocation mgr_worn ⟨key_local⟩ 41 rfl (same_key_refl key_local)).2.1 rfl,
   (accept_precedes_allocation mgr_two ⟨key_local⟩ (-1) rfl (same_key_refl key_local)).2.2.1
     { mgr_two with conns := mgr_two.conns.set 2 ⟨1, -1, 0, 0, 0⟩, num_cons := 3 }
     [Call.accept_crypto_connection ⟨key_local⟩, Call.connection_status_handler (-1) 2,
       Call.connection_data_handler (-1) 2, Call.connection_lossy_data_handler (-1) 2]
     (by decide)⟩

end SelfConnection
